import Mathlib

/-!
# DVI scanline engine of PicoLibSDK (`_display/dvi/dvi.c`)

A shallow embedding of the interrupt handler `DviLine`, of the start state set
by `DviInit`, of the descriptor builder `DviSetCb` / `DviBufInit`, of the
shutdown sequence `DviTerm`, of the table `DviCtrlSyms` and of the interpolator
set-up and destinations of `DviEncode`, followed by the properties proved
about them.

Conventions of the embedding:

* C `int` variables (`DviScanLine`, `DviBufInx`, the local `line`) are `Int`.
  The timing constants are non-negative `int` macros of `dvi.h`, which is not
  part of the sources at hand; they are parameters (`Config`) of type `Nat`.
  On every state considered below the `int` arithmetic stays between
  `-DVI_VSYNC-DVI_VBACK` and `DVI_VTOTAL`, so no signed overflow occurs.
* `DviFrame` is a `u32`: its increment is taken modulo `2^32`.
* A pointer into one of the five control buffers is a pair (array, word index).
* Calls that leave the program (`DMA_SetRead`, `DviEncode`, `DMA_Abort`, ...)
  are recorded as effects, in program order.
* The busy-wait `while (DMA_Next(...) != DVI_HACT/2) {}` of `DviLine` polls a
  hardware register and has no effect on the program state; the embedding
  describes a call of `DviLine` whose poll has completed.
-/

namespace PicoDvi

/-- Build-time constants used by `dvi.c` and defined in headers outside the
sources at hand (`dvi.h`, board configuration). -/
structure Config where
  DVI_VSYNC : Nat
  DVI_VBACK : Nat
  DVI_VACT : Nat
  DVI_VTOTAL : Nat
  DVI_HFRONT : Nat
  DVI_HSYNC : Nat
  DVI_HBACK : Nat
  DVI_HACT : Nat
  DVI_DMA : Nat
  DVI_SM0 : Nat
  deriving DecidableEq, Repr

/-- The five control buffers holding DMA command lists (`dvi.c` lines 113-117). -/
inductive CtrlBuf where
  | DviLineBufSync
  | DviLineBufDark0
  | DviLineBufDark12
  | DviLineBufImg0
  | DviLineBufImg12
  deriving DecidableEq, Repr

/-- A `u32*` into a control buffer: the array and the word index in it. -/
structure CbPtr where
  buf : CtrlBuf
  off : Int
  deriving DecidableEq, Repr

/-- One value per TMDS lane (`DVI_LANES = 3`), e.g. `DviCtrlBufNext[0..2]`. -/
structure Lanes where
  lane0 : CbPtr
  lane1 : CbPtr
  lane2 : CbPtr
  deriving DecidableEq, Repr

/-- The global variables of `dvi.c` that `DviLine` reads and writes. -/
structure DviState where
  DviScanLine : Int
  DviFrame : Nat
  DviBufInx : Int
  DviCtrlBufNext : Lanes
  deriving DecidableEq, Repr

/-- What one call of `DviLine` does to the outside: the read pointers it hands
to the three control DMA channels (`DMA_SetRead(DVI_DMA_CB(lane), ...)`), and
its calls `DviEncode(line, bufinx)`, in order. -/
structure LineEffect where
  DMA_SetRead : Lanes
  DviEncode : List (Int × Int)
  deriving DecidableEq, Repr

/-- The handler `DviLine` (`dvi.c` lines 242-347, without the `DVI_IRQTIME`
debug code). -/
def DviLine (c : Config) (s : DviState) : DviState × LineEffect :=
  -- set next control buffer (lines 253-260)
  let setRead := s.DviCtrlBufNext
  -- increment scanline (lines 263-273)
  let line := s.DviScanLine + 1
  let frame := if line ≥ (c.DVI_VTOTAL : Int) then (s.DviFrame + 1) % 2 ^ 32 else s.DviFrame
  let line := if line ≥ (c.DVI_VTOTAL : Int) then 0 else line
  let scanLine := line
  -- VSYNC line (lines 276-282)
  let line := line - (c.DVI_VSYNC : Int)
  if line < 0 then
    ({ DviScanLine := scanLine, DviFrame := frame, DviBufInx := s.DviBufInx,
       DviCtrlBufNext := ⟨⟨.DviLineBufSync, 0⟩, ⟨.DviLineBufDark12, 0⟩, ⟨.DviLineBufDark12, 2 * 4⟩⟩ },
     { DMA_SetRead := setRead, DviEncode := [] })
  else
    -- front porch and back porch (lines 286-292)
    let line := line - (c.DVI_VBACK : Int)
    if line < 0 ∨ line ≥ (c.DVI_VACT : Int) then
      ({ DviScanLine := scanLine, DviFrame := frame, DviBufInx := s.DviBufInx,
         DviCtrlBufNext := ⟨⟨.DviLineBufDark0, 0⟩, ⟨.DviLineBufDark12, 0⟩, ⟨.DviLineBufDark12, 2 * 4⟩⟩ },
       { DMA_SetRead := setRead, DviEncode := [] })
    else
      -- image scanlines (lines 297-315)
      let bufinx := s.DviBufInx
      let next : Lanes :=
        ⟨⟨.DviLineBufImg0, 4 * 4 * bufinx⟩, ⟨.DviLineBufImg12, 2 * 4 * bufinx⟩,
         ⟨.DviLineBufImg12, 2 * 4 * (bufinx + 2)⟩⟩
      if Int.land line 1 = 0 then
        ({ DviScanLine := scanLine, DviFrame := frame, DviBufInx := s.DviBufInx,
           DviCtrlBufNext := next },
         { DMA_SetRead := setRead, DviEncode := [(Int.tdiv line 2, bufinx)] })
      else
        ({ DviScanLine := scanLine, DviFrame := frame, DviBufInx := Int.xor bufinx 1,
           DviCtrlBufNext := next },
         { DMA_SetRead := setRead, DviEncode := [] })

/-- The values `DviInit` gives to the globals (`dvi.c` lines 602-610). -/
def DviInit : DviState :=
  { DviScanLine := 0, DviFrame := 0, DviBufInx := 0,
    DviCtrlBufNext := ⟨⟨.DviLineBufSync, 0⟩, ⟨.DviLineBufDark12, 0⟩, ⟨.DviLineBufDark12, 2 * 4⟩⟩ }

/-- The state after `DviInit` and `n` calls of `DviLine`. -/
def DviRun (c : Config) : Nat → DviState
  | 0 => DviInit
  | n + 1 => (DviLine c (DviRun c n)).1

/-- The descriptor family of a vertical-sync line: `DviLineBufSync` on lane 0,
the two halves of `DviLineBufDark12` on lanes 1 and 2 (filled at lines 470-488). -/
def vsyncChain : Lanes :=
  ⟨⟨.DviLineBufSync, 0⟩, ⟨.DviLineBufDark12, 0⟩, ⟨.DviLineBufDark12, 8⟩⟩

/-- The descriptor family of a dark (blanking) line: `DviLineBufDark0` on lane 0,
the two halves of `DviLineBufDark12` on lanes 1 and 2. -/
def darkChain : Lanes :=
  ⟨⟨.DviLineBufDark0, 0⟩, ⟨.DviLineBufDark12, 0⟩, ⟨.DviLineBufDark12, 8⟩⟩

/-- The descriptor family of an image line of data buffer `b`: chain `b` of
`DviLineBufImg0`, chains `b` and `b+2` of `DviLineBufImg12` (filled at lines 490-509). -/
def imageChain (b : Int) : Lanes :=
  ⟨⟨.DviLineBufImg0, 16 * b⟩, ⟨.DviLineBufImg12, 8 * b⟩, ⟨.DviLineBufImg12, 8 * (b + 2)⟩⟩

/-- The line number that a call of `DviLine` stores into `DviScanLine`
(lines 263-273): the old one plus one, or 0 at the end of the frame. -/
def newLine (c : Config) (s : DviState) : Int :=
  if s.DviScanLine + 1 ≥ (c.DVI_VTOTAL : Int) then 0 else s.DviScanLine + 1

/-- The frame counter after a call of `DviLine` (lines 265-268). -/
def newFrame (c : Config) (s : DviState) : Nat :=
  if s.DviScanLine + 1 ≥ (c.DVI_VTOTAL : Int) then (s.DviFrame + 1) % 2 ^ 32 else s.DviFrame

/-- The successive calls of `DviLine`, from state `s`: the state left by each
of the next `n` calls, with its effect. -/
def DviLines (c : Config) : Nat → DviState → List (DviState × LineEffect)
  | 0, _ => []
  | n + 1, s => DviLine c s :: DviLines c n (DviLine c s).1

/-- The three kinds of line of a frame. -/
inductive Band where
  | VSync
  | Blanking
  | Active
  deriving DecidableEq, Repr

/-- The band whose descriptor family a value of `DviCtrlBufNext` is, if any. -/
def bandOf (n : Lanes) : Option Band :=
  if n = vsyncChain then some .VSync
  else if n = darkChain then some .Blanking
  else if n = imageChain (n.lane0.off / 16) then some .Active
  else none

/-- The bands chosen by the calls of a run, in order. -/
def bandsOf (r : List (DviState × LineEffect)) : List (Option Band) :=
  r.map (fun x => bandOf x.1.DviCtrlBufNext)

/-- The bands of the descriptor sets handed to the DMA by the calls of a run. -/
def committedBandsOf (r : List (DviState × LineEffect)) : List (Option Band) :=
  r.map (fun x => bandOf x.2.DMA_SetRead)

/-- All encoder calls of a run, in order. -/
def encodeCalls (r : List (DviState × LineEffect)) : List (Int × Int) :=
  r.flatMap (fun x => x.2.DviEncode)

/-- The calls of a run from `s` that changed `DviBufInx`, each given as the
line number it stored. -/
def toggleLines : DviState → List (DviState × LineEffect) → List Int
  | _, [] => []
  | s, x :: r =>
    if x.1.DviBufInx ≠ s.DviBufInx then x.1.DviScanLine :: toggleLines x.1 r
    else toggleLines x.1 r

/-- The calls of a run that invoked the encoder, each given as the line number
it stored. -/
def encodeLines (r : List (DviState × LineEffect)) : List Int :=
  (r.filter (fun x => decide (x.2.DviEncode ≠ []))).map (fun x => x.1.DviScanLine)

/-- The vertical timing of scenario A: V=2, B=3, A=4, front porch 1, T=10. -/
def scenarioA (c : Config) : Config :=
  { c with DVI_VSYNC := 2, DVI_VBACK := 3, DVI_VACT := 4, DVI_VTOTAL := 10 }

/-- A timing whose image area is one source line tall, shown as two output
lines: V=2, B=3, A=2, front porch 1, T=8. -/
def scenarioC (c : Config) : Config :=
  { c with DVI_VSYNC := 2, DVI_VBACK := 3, DVI_VACT := 2, DVI_VTOTAL := 8 }

/-! ### Descriptor builder -/

/-- Macros and helpers of the SDK headers (`sdk_dma.h`, `sdk_pio.h`) used by
`DviSetCb`; the headers are outside the sources at hand, so their values are
parameters. `PioGetDreq sm` stands for `PioGetDreq(DVI_PIO, sm, True)`. -/
structure Sdk where
  DMA_CTRL_QUIET : Nat
  DMA_CTRL_TREQ : Nat → Nat
  DMA_CTRL_CHAIN : Nat → Nat
  DMA_CTRL_RING_SIZE : Nat → Nat
  DMA_CTRL_INC_READ : Nat
  DMA_CTRL_SIZE : Nat → Nat
  DMA_SIZE_32 : Nat
  DMA_CTRL_EN : Nat
  PioGetDreq : Nat → Nat

/-- A `u32` stored in a control buffer: a number, or the address of an object
of the program or of a hardware register, kept symbolic. -/
inductive Word where
  /-- Address `(u32)&DviCtrlSyms[i]` -/
  | addrCtrlSyms (i : Nat)
  /-- Address `(u32)&DviLineBuf[i]` -/
  | addrLineBuf (i : Nat)
  /-- Address `(u32)PIO_TXF(DVI_PIO, sm)`, the transfer FIFO of state machine `sm` -/
  | addrTxf (sm : Nat)
  | num (n : Nat)
  deriving DecidableEq, Repr

/-- Macro `DVI_SM(lane)` (line 51). -/
def DVI_SM (c : Config) (lane : Nat) : Nat := c.DVI_SM0 + lane

/-- Macro `DVI_DMA_CB(lane)` (line 60). -/
def DVI_DMA_CB (c : Config) (lane : Nat) : Nat := c.DVI_DMA + lane * 2

/-- Macro `DVI_DMA_DB(lane)` (line 61). -/
def DVI_DMA_DB (c : Config) (lane : Nat) : Nat := c.DVI_DMA + lane * 2 + 1

/-- Macro `DBUF_SIZE` (line 46), the size of one line buffer in bytes. -/
def DBUF_SIZE (c : Config) : Nat := c.DVI_HACT / 2 * 4

/-- The control word that `DviSetCb` stores (lines 445-457). -/
def ctrlWord (k : Sdk) (c : Config) (lane ring : Nat) (irq : Bool) : Nat :=
  (if irq then 0 else k.DMA_CTRL_QUIET) |||
  k.DMA_CTRL_TREQ (k.PioGetDreq (DVI_SM c lane)) |||
  k.DMA_CTRL_CHAIN (DVI_DMA_CB c lane) |||
  k.DMA_CTRL_RING_SIZE ring |||
  k.DMA_CTRL_INC_READ |||
  k.DMA_CTRL_SIZE k.DMA_SIZE_32 |||
  k.DMA_CTRL_EN

/-- The function `DviSetCb` (lines 440-460): the four stores through `cb`, in
order, and the returned pointer. -/
def DviSetCb (k : Sdk) (c : Config) (cb : CbPtr) (lane : Nat) (read : Word)
    (count ring : Nat) (irq : Bool) : List (CbPtr × Word) × CbPtr :=
  ([(cb, read),
    (⟨cb.buf, cb.off + 1⟩, .addrTxf (DVI_SM c lane)),
    (⟨cb.buf, cb.off + 2⟩, .num count),
    (⟨cb.buf, cb.off + 3⟩, .num (ctrlWord k c lane ring irq))],
   ⟨cb.buf, cb.off + 4⟩)

/-- The loop of lines 493-500, with `i` iterations left, `cb` and `db` as in
the source (`db` is the word index in `DviLineBuf`). -/
def imgLoop0 (k : Sdk) (c : Config) : Nat → CbPtr → Nat → List (CbPtr × Word) × CbPtr × Nat
  | 0, cb, db => ([], cb, db)
  | i + 1, cb, db =>
    let r1 := DviSetCb k c cb 0 (.addrCtrlSyms 0) (c.DVI_HFRONT / 2) 2 false
    let r2 := DviSetCb k c r1.2 0 (.addrCtrlSyms 1) (c.DVI_HSYNC / 2) 2 false
    let r3 := DviSetCb k c r2.2 0 (.addrCtrlSyms 0) (c.DVI_HBACK / 2) 2 true
    let r4 := DviSetCb k c r3.2 0 (.addrLineBuf db) (c.DVI_HACT / 2) 0 false
    let rest := imgLoop0 k c i r4.2 (db + DBUF_SIZE c / 4)
    (r1.1 ++ r2.1 ++ r3.1 ++ r4.1 ++ rest.1, rest.2)

/-- The loop of lines 504-509, with `n` iterations left and loop variable `i`. -/
def imgLoop12 (k : Sdk) (c : Config) :
    Nat → Nat → CbPtr → Nat → List (CbPtr × Word) × CbPtr × Nat
  | 0, _, cb, db => ([], cb, db)
  | n + 1, i, cb, db =>
    let r1 := DviSetCb k c cb (i / 2 + 1) (.addrCtrlSyms 0)
      ((c.DVI_HFRONT + c.DVI_HSYNC + c.DVI_HBACK) / 2) 2 false
    let r2 := DviSetCb k c r1.2 (i / 2 + 1) (.addrLineBuf db) (c.DVI_HACT / 2) 0 false
    let rest := imgLoop12 k c n (i + 1) r2.2 (db + DBUF_SIZE c / 4)
    (r1.1 ++ r2.1 ++ rest.1, rest.2)

/-- The function `DviBufInit` (lines 463-510): all its stores into the control
buffers, in program order. -/
def DviBufInit (k : Sdk) (c : Config) : List (CbPtr × Word) :=
  -- lane 0 vertical sync
  let s1 := DviSetCb k c ⟨.DviLineBufSync, 0⟩ 0 (.addrCtrlSyms 2) (c.DVI_HFRONT / 2) 2 false
  let s2 := DviSetCb k c s1.2 0 (.addrCtrlSyms 3) (c.DVI_HSYNC / 2) 2 false
  let s3 := DviSetCb k c s2.2 0 (.addrCtrlSyms 2) (c.DVI_HBACK / 2) 2 true
  let s4 := DviSetCb k c s3.2 0 (.addrCtrlSyms 2) (c.DVI_HACT / 2) 2 false
  -- lane 0 dark line
  let d1 := DviSetCb k c ⟨.DviLineBufDark0, 0⟩ 0 (.addrCtrlSyms 0) (c.DVI_HFRONT / 2) 2 false
  let d2 := DviSetCb k c d1.2 0 (.addrCtrlSyms 1) (c.DVI_HSYNC / 2) 2 false
  let d3 := DviSetCb k c d2.2 0 (.addrCtrlSyms 0) (c.DVI_HBACK / 2) 2 true
  let d4 := DviSetCb k c d3.2 0 (.addrCtrlSyms 4) (c.DVI_HACT / 2) 2 false
  -- lane 1 dark line
  let e1 := DviSetCb k c ⟨.DviLineBufDark12, 0⟩ 1 (.addrCtrlSyms 0)
    ((c.DVI_HFRONT + c.DVI_HSYNC + c.DVI_HBACK) / 2) 2 false
  let e2 := DviSetCb k c e1.2 1 (.addrCtrlSyms 0) (c.DVI_HACT / 2) 2 false
  -- lane 2 dark line
  let f1 := DviSetCb k c e2.2 2 (.addrCtrlSyms 0)
    ((c.DVI_HFRONT + c.DVI_HSYNC + c.DVI_HBACK) / 2) 2 false
  let f2 := DviSetCb k c f1.2 2 (.addrCtrlSyms 0) (c.DVI_HACT / 2) 2 false
  -- lane 0 image lines
  let g := imgLoop0 k c 2 ⟨.DviLineBufImg0, 0⟩ 0
  -- lane 1+2 image lines
  let h := imgLoop12 k c 4 0 ⟨.DviLineBufImg12, 0⟩ g.2.2
  s1.1 ++ s2.1 ++ s3.1 ++ s4.1 ++ d1.1 ++ d2.1 ++ d3.1 ++ d4.1 ++
    e1.1 ++ e2.1 ++ f1.1 ++ f2.1 ++ g.1 ++ h.1

/-- The word at `p` after a sequence of stores: the last store to `p`. -/
def load (ws : List (CbPtr × Word)) (p : CbPtr) : Option Word :=
  (ws.reverse.find? (fun w => decide (w.1 = p))).map (fun w => w.2)

/-- One DMA command segment: the four registers loaded from a control buffer. -/
structure Segment where
  read : Word
  write : Word
  count : Word
  ctrl : Word
  deriving DecidableEq, Repr

/-- The command segment stored at `p` (four consecutive words). -/
def segmentAt (ws : List (CbPtr × Word)) (p : CbPtr) : Option Segment :=
  match load ws p, load ws ⟨p.buf, p.off + 1⟩, load ws ⟨p.buf, p.off + 2⟩,
    load ws ⟨p.buf, p.off + 3⟩ with
  | some r, some w, some n, some x => some ⟨r, w, n, x⟩
  | _, _, _, _ => none

/-- The `n` consecutive command segments starting at `p`. -/
def chainAt (ws : List (CbPtr × Word)) : Nat → CbPtr → List (Option Segment)
  | 0, _ => []
  | n + 1, p => segmentAt ws p :: chainAt ws n ⟨p.buf, p.off + 4⟩

/-- Whether a control word carries the `DMA_CTRL_QUIET` bit, i.e. whether the
segment completes without raising the interrupt. -/
def isQuiet (k : Sdk) (x : Word) : Option Bool :=
  match x with
  | .num n =>
    if n &&& k.DMA_CTRL_QUIET = k.DMA_CTRL_QUIET then some true
    else if n &&& k.DMA_CTRL_QUIET = 0 then some false
    else none
  | _ => none

/-- For each of the `n` segments of the chain at `p`, whether it is quiet. -/
def quietFlags (k : Sdk) (ws : List (CbPtr × Word)) (n : Nat) (p : CbPtr) :
    List (Option Bool) :=
  (chainAt ws n p).map (fun s => s.bind (fun g => isQuiet k g.ctrl))

/-- The control-word layout of the RP2040 DMA (`CTRL_TRIG` register): EN bit 0,
DATA_SIZE bits 2-3, INCR_READ bit 4, RING_SIZE bits 6-9, CHAIN_TO bits 11-14,
TREQ_SEL bits 15-20, IRQ_QUIET bit 21; DREQ of the TX FIFO of state machine
`sm` of PIO0 is `sm`. Used as a sample value of `Sdk`. -/
def rp2040 : Sdk :=
  { DMA_CTRL_QUIET := 2 ^ 21
    DMA_CTRL_TREQ := fun d => d <<< 15
    DMA_CTRL_CHAIN := fun ch => ch <<< 11
    DMA_CTRL_RING_SIZE := fun r => r <<< 6
    DMA_CTRL_INC_READ := 2 ^ 4
    DMA_CTRL_SIZE := fun z => z <<< 2
    DMA_SIZE_32 := 2
    DMA_CTRL_EN := 1
    PioGetDreq := fun sm => sm }

/-- The 640x480 timing with DMA channels 0-5 and state machines 0-2, a sample
value of `Config`. -/
def vga640 : Config :=
  { DVI_VSYNC := 2, DVI_VBACK := 33, DVI_VACT := 480, DVI_VTOTAL := 525,
    DVI_HFRONT := 16, DVI_HSYNC := 96, DVI_HBACK := 48, DVI_HACT := 640,
    DVI_DMA := 0, DVI_SM0 := 0 }

/-! ### Shutdown -/

/-- A call made by `DviTerm` to the hardware layer. -/
inductive HwOp where
  | DviDisable
  | DMA_Abort (ch : Nat)
  | NVIC_IRQDisable
  | DMA_IRQ1Disable (ch : Nat)
  | DMA_IRQ1Clear (ch : Nat)
  | PioInit
  deriving DecidableEq, Repr

/-- Macro `DVI_DMA_CB0` (line 53). -/
def DVI_DMA_CB0 (c : Config) : Nat := c.DVI_DMA + 0
/-- Macro `DVI_DMA_DB0` (line 54). -/
def DVI_DMA_DB0 (c : Config) : Nat := c.DVI_DMA + 1
/-- Macro `DVI_DMA_CB1` (line 55). -/
def DVI_DMA_CB1 (c : Config) : Nat := c.DVI_DMA + 2
/-- Macro `DVI_DMA_DB1` (line 56). -/
def DVI_DMA_DB1 (c : Config) : Nat := c.DVI_DMA + 3
/-- Macro `DVI_DMA_CB2` (line 57). -/
def DVI_DMA_CB2 (c : Config) : Nat := c.DVI_DMA + 4
/-- Macro `DVI_DMA_DB2` (line 58). -/
def DVI_DMA_DB2 (c : Config) : Nat := c.DVI_DMA + 5

/-- The function `DviTerm` (lines 641-664): its calls, in program order. -/
def DviTerm (c : Config) : List HwOp :=
  [ .DviDisable,
    .DMA_Abort (DVI_DMA_DB0 c),
    .DMA_Abort (DVI_DMA_CB0 c),
    .DMA_Abort (DVI_DMA_DB0 c),
    .DMA_Abort (DVI_DMA_CB1 c),
    .DMA_Abort (DVI_DMA_DB1 c),
    .DMA_Abort (DVI_DMA_CB2 c),
    .DMA_Abort (DVI_DMA_DB2 c),
    .NVIC_IRQDisable,
    .DMA_IRQ1Disable (DVI_DMA_DB0 c),
    .DMA_IRQ1Clear (DVI_DMA_DB0 c),
    .PioInit ]

/-- The position of the first abort of channel `ch` in a sequence of calls
(the length of the sequence if there is none). -/
def firstAbort (ops : List HwOp) (ch : Nat) : Nat :=
  ops.indexOf (.DMA_Abort ch)

/-- Data-then-control order of a lane: its data channel is aborted, and
before any abort of its control channel. -/
def dataAbortedFirst (c : Config) (lane : Nat) : Prop :=
  firstAbort (DviTerm c) (DVI_DMA_DB c lane) < firstAbort (DviTerm c) (DVI_DMA_CB c lane)

/-! ### Control symbols -/

/-- The table `DviCtrlSyms` (lines 65-82): the four sync words of negative
polarity and the dark-line word. -/
def DviCtrlSyms : List Nat :=
  [0xaaeab, 0x55154, 0x2acab, 0xd5354, 0x7fd00]

/-- The TMDS control code of the pair (C1, C0) under the standard mapping
00 -> 0x354, 01 -> 0x0AB, 10 -> 0x154, 11 -> 0x2AB. This is the mapping the
table is compared with, written from the statement and not from the source. -/
def specTmdsCtrl (c1 c0 : Bool) : Nat :=
  match c1, c0 with
  | false, false => 0x354
  | false, true => 0x0AB
  | true, false => 0x154
  | true, true => 0x2AB

/-- The word expected at index `i` of the table: bit 0 of `i` is HSYNC active,
bit 1 is VSYNC active, the pair sent is C0 = not HSYNC, C1 = not VSYNC, and the
10-bit symbol is placed in bits 0-9 and in bits 10-19. Written from the
statement, to be compared with `DviCtrlSyms`. -/
def specCtrlWord (i : Nat) : Nat :=
  (specTmdsCtrl (!i.testBit 1) (!i.testBit 0) <<< 10) ||| specTmdsCtrl (!i.testBit 1) (!i.testBit 0)

/-! ### Encoder set-up -/

/-- Macro `PIXEL_WIDTH` (line 146). -/
def PIXEL_WIDTH : Nat := 16
/-- Macro `INDEX_SHIFT` (line 147). -/
def INDEX_SHIFT : Nat := 2
/-- Macro `PIXEL_LSB` (line 148). -/
def PIXEL_LSB : Nat := 0
/-- Macro `LUT_INDEX_WIDTH` (line 149). -/
def LUT_INDEX_WIDTH : Nat := 6
/-- Macro `INDEX_MSB` (line 150). -/
def INDEX_MSB : Nat := INDEX_SHIFT + LUT_INDEX_WIDTH - 1

/-- Macro `SHIFT_CHANNEL_TO_INDEX` (lines 159 and 193), as a function of the
`CHANNEL_MSB` in force where it is expanded. -/
def SHIFT_CHANNEL_TO_INDEX (CHANNEL_MSB : Nat) : Nat :=
  PIXEL_LSB + CHANNEL_MSB + 1 - LUT_INDEX_WIDTH - INDEX_SHIFT

namespace Red
/-- Macro `CHANNEL_LSB` of the red channel (line 144). -/
def CHANNEL_LSB : Nat := 11
/-- Macro `CHANNEL_MSB` of the red channel (line 145). -/
def CHANNEL_MSB : Nat := 15
end Red

namespace Green
/-- Macro `CHANNEL_LSB` of the green channel (line 183). -/
def CHANNEL_LSB : Nat := 5
/-- Macro `CHANNEL_MSB` of the green channel (line 184). -/
def CHANNEL_MSB : Nat := 10
end Green

/-- The settings of one interpolator lane made by `InterpShift`, `InterpMask`
and `InterpCrossInput`. -/
structure InterpLane where
  shift : Nat
  maskLsb : Nat
  maskMsb : Nat
  crossInput : Bool
  deriving DecidableEq, Repr

/-- Interpolator 0, lane 0 as `DviEncode` sets it (lines 164-165): red, 1st pixel. -/
def redLane0 : InterpLane :=
  { shift := SHIFT_CHANNEL_TO_INDEX Red.CHANNEL_MSB,
    maskLsb := INDEX_MSB - (Red.CHANNEL_MSB - Red.CHANNEL_LSB), maskMsb := INDEX_MSB,
    crossInput := false }

/-- Interpolator 0, lane 1 as `DviEncode` sets it (lines 168-170): red, 2nd pixel. -/
def redLane1 : InterpLane :=
  { shift := PIXEL_WIDTH + SHIFT_CHANNEL_TO_INDEX Red.CHANNEL_MSB,
    maskLsb := INDEX_MSB - (Red.CHANNEL_MSB - Red.CHANNEL_LSB), maskMsb := INDEX_MSB,
    crossInput := true }

/-- Interpolator 1, lane 0 as `DviEncode` sets it (lines 198-199): green, 1st pixel. -/
def greenLane0 : InterpLane :=
  { shift := SHIFT_CHANNEL_TO_INDEX Green.CHANNEL_MSB,
    maskLsb := INDEX_MSB - (Green.CHANNEL_MSB - Green.CHANNEL_LSB), maskMsb := INDEX_MSB,
    crossInput := false }

/-- Interpolator 1, lane 1 as `DviEncode` sets it (lines 202-204): green, 2nd pixel. -/
def greenLane1 : InterpLane :=
  { shift := PIXEL_WIDTH + SHIFT_CHANNEL_TO_INDEX Green.CHANNEL_MSB,
    maskLsb := INDEX_MSB - (Green.CHANNEL_MSB - Green.CHANNEL_LSB), maskMsb := INDEX_MSB,
    crossInput := true }

/-- Modelled from the spec: the shift/mask rule of an interpolator lane, which
is hardware driven by the assembly routine `DviEncRG`, both outside the
sources at hand. The lane shifts its input word right by `shift` and keeps the
bits `maskLsb` to `maskMsb`; with `crossInput` lane 1 takes the same input word
as lane 0 (the accumulator of lane 0). The result is added to the base address
of `TmdsTable`, so it is the byte offset of the table entry. -/
def interpOffset (l : InterpLane) (w : Nat) : Nat :=
  (w >>> l.shift) &&& (2 ^ (l.maskMsb + 1) - 2 ^ l.maskLsb)

/-- The first pixel of an input word: bits 0-15. -/
def pixel0 (w : Nat) : Nat := w % 2 ^ 16
/-- The second pixel of an input word: bits 16-31. -/
def pixel1 (w : Nat) : Nat := w / 2 ^ 16 % 2 ^ 16
/-- The red channel of an RGB565 pixel: bits 11-15. -/
def redOf (px : Nat) : Nat := px / 2 ^ 11 % 2 ^ 5
/-- The green channel of an RGB565 pixel: bits 5-10. -/
def greenOf (px : Nat) : Nat := px / 2 ^ 5 % 2 ^ 6

/-- Macro `DVI_LANES` (line 40). -/
def DVI_LANES : Nat := 3

/-- The number of words of `DviLineBuf` (line 105). -/
def DviLineBuf_size (c : Config) : Nat := DBUF_SIZE c / 4 * DVI_LANES * 2

/-- The index in `DviLineBuf` of the red destination of `DviEncode` (line 216). -/
def DviEncode_dstR (c : Config) (bufinx : Int) : Int :=
  Int.tdiv ((2 * 2 + bufinx) * (DBUF_SIZE c : Int)) 4

/-- The index in `DviLineBuf` of the green destination of `DviEncode` (line 217). -/
def DviEncode_dstG (c : Config) (bufinx : Int) : Int :=
  Int.tdiv ((1 * 2 + bufinx) * (DBUF_SIZE c : Int)) 4

/-- The index in `DviLineBuf` of the blue destination of `DviEncode` (line 229). -/
def DviEncode_dst (c : Config) (bufinx : Int) : Int :=
  Int.tdiv ((0 * 2 + bufinx) * (DBUF_SIZE c : Int)) 4

/-- The destination of `DviEncode` for a lane: lane 0 is blue, lane 1 green,
lane 2 red (line 40). -/
def encodeDst (c : Config) (lane : Nat) (bufinx : Int) : Int :=
  match lane with
  | 0 => DviEncode_dst c bufinx
  | 1 => DviEncode_dstG c bufinx
  | _ => DviEncode_dstR c bufinx

/-! ### Sizes and totals of the control buffers -/

/-- The declared number of words of each control buffer (lines 113-117). -/
def CtrlBuf.size : CtrlBuf → Nat
  | .DviLineBufSync => 4 * 4
  | .DviLineBufDark0 => 4 * 4
  | .DviLineBufDark12 => 2 * 4 * 2
  | .DviLineBufImg0 => 4 * 4 * 2
  | .DviLineBufImg12 => 2 * 4 * 4

/-- The pointers to all words of a control buffer, in increasing order. -/
def allWords (b : CtrlBuf) : List CbPtr :=
  (List.range b.size).map (fun i => ⟨b, (i : Int)⟩)

/-- The transfer count held by a word, when it is a number. -/
def countOf : Word → Option Nat
  | .num n => some n
  | _ => none

/-- The sum of the transfer counts of the segments of a chain. -/
def chainCount : List (Option Segment) → Option Nat
  | [] => some 0
  | s :: r =>
    match s.bind (fun g => countOf g.count), chainCount r with
    | some n, some t => some (n + t)
    | _, _ => none

/-- The last of the `n` segments of the chain at `p`. -/
def lastSegment (ws : List (CbPtr × Word)) (n : Nat) (p : CbPtr) : Option Segment :=
  ((chainAt ws n p).getLast?).bind id

/-! ## Theorems -/

/-! ## Auxiliary facts on the `int` operators -/

theorem land_one_of_nonneg (x : Int) (h : 0 ≤ x) : Int.land x 1 = x % 2 := by
  obtain ⟨n, rfl⟩ := Int.eq_ofNat_of_zero_le h
  show ((Nat.land n 1 : Nat) : Int) = _
  have h1 : Nat.land n 1 = n % 2 := Nat.and_one_is_mod n
  rw [h1]; rfl

theorem tdiv_two_of_nonneg (x : Int) (h : 0 ≤ x) : Int.tdiv x 2 = x / 2 :=
  Int.tdiv_eq_ediv h (by decide)

theorem xor_one_ne (x : Int) : Int.xor x 1 ≠ x := by
  intro h
  have h0 := congrArg (fun y => Int.testBit y 0) h
  have h1 : Int.testBit 1 0 = true := by decide
  simp only [Int.testBit_lxor, h1] at h0
  cases hx : Int.testBit x 0 <;> simp [hx] at h0

/-- A call landing on a vertical-sync line. -/
theorem DviLine_vsync (c : Config) (s : DviState)
    (h : newLine c s < (c.DVI_VSYNC : Int)) :
    DviLine c s =
      ({ DviScanLine := newLine c s, DviFrame := newFrame c s, DviBufInx := s.DviBufInx,
         DviCtrlBufNext := vsyncChain },
       { DMA_SetRead := s.DviCtrlBufNext, DviEncode := [] }) := by
  unfold newLine at h
  unfold DviLine newLine newFrame vsyncChain
  simp only []
  split_ifs at h ⊢ <;> first | rfl | omega

/-- A call landing on a dark line (vertical back porch or front porch). -/
theorem DviLine_dark (c : Config) (s : DviState)
    (h1 : (c.DVI_VSYNC : Int) ≤ newLine c s)
    (h2 : newLine c s < (c.DVI_VSYNC : Int) + c.DVI_VBACK ∨
      (c.DVI_VSYNC : Int) + c.DVI_VBACK + c.DVI_VACT ≤ newLine c s) :
    DviLine c s =
      ({ DviScanLine := newLine c s, DviFrame := newFrame c s, DviBufInx := s.DviBufInx,
         DviCtrlBufNext := darkChain },
       { DMA_SetRead := s.DviCtrlBufNext, DviEncode := [] }) := by
  unfold newLine at h1 h2
  unfold DviLine newLine newFrame darkChain
  simp only []
  split_ifs at h1 h2 ⊢ <;> first | rfl | omega

/-- A call landing on an even line of the image area: encode, keep the index. -/
theorem DviLine_even (c : Config) (s : DviState)
    (h1 : (c.DVI_VSYNC : Int) + c.DVI_VBACK ≤ newLine c s)
    (h2 : newLine c s < (c.DVI_VSYNC : Int) + c.DVI_VBACK + c.DVI_VACT)
    (h3 : (newLine c s - c.DVI_VSYNC - c.DVI_VBACK) % 2 = 0) :
    DviLine c s =
      ({ DviScanLine := newLine c s, DviFrame := newFrame c s, DviBufInx := s.DviBufInx,
         DviCtrlBufNext := imageChain s.DviBufInx },
       { DMA_SetRead := s.DviCtrlBufNext,
         DviEncode := [((newLine c s - c.DVI_VSYNC - c.DVI_VBACK) / 2, s.DviBufInx)] }) := by
  have hp : 0 ≤ newLine c s - c.DVI_VSYNC - c.DVI_VBACK := by omega
  have hl := land_one_of_nonneg _ hp
  have hd := tdiv_two_of_nonneg _ hp
  unfold newLine at h1 h2 h3 hl hd
  unfold DviLine newLine newFrame imageChain
  simp only []
  split_ifs at h1 h2 h3 hl hd ⊢ <;> first | omega | (simp only [hd]; norm_num)

/-- A call landing on an odd line of the image area: no encoding, flip the index. -/
theorem DviLine_odd (c : Config) (s : DviState)
    (h1 : (c.DVI_VSYNC : Int) + c.DVI_VBACK ≤ newLine c s)
    (h2 : newLine c s < (c.DVI_VSYNC : Int) + c.DVI_VBACK + c.DVI_VACT)
    (h3 : (newLine c s - c.DVI_VSYNC - c.DVI_VBACK) % 2 = 1) :
    DviLine c s =
      ({ DviScanLine := newLine c s, DviFrame := newFrame c s,
         DviBufInx := Int.xor s.DviBufInx 1,
         DviCtrlBufNext := imageChain s.DviBufInx },
       { DMA_SetRead := s.DviCtrlBufNext, DviEncode := [] }) := by
  have hp : 0 ≤ newLine c s - c.DVI_VSYNC - c.DVI_VBACK := by omega
  have hl := land_one_of_nonneg _ hp
  unfold newLine at h1 h2 h3 hl
  unfold DviLine newLine newFrame imageChain
  simp only []
  split_ifs at h1 h2 h3 hl ⊢ <;> first | omega | (norm_num)

/-! ### The stored line and the chosen descriptor family -/

theorem DviLine_scanLine (c : Config) (s : DviState) :
    (DviLine c s).1.DviScanLine = newLine c s := by
  unfold DviLine newLine
  simp only []
  split_ifs <;> rfl

theorem DviLine_frame (c : Config) (s : DviState) :
    (DviLine c s).1.DviFrame = newFrame c s := by
  unfold DviLine newFrame
  simp only []
  split_ifs <;> rfl

theorem DviLine_setRead (c : Config) (s : DviState) :
    (DviLine c s).2.DMA_SetRead = s.DviCtrlBufNext := by
  unfold DviLine
  simp only []
  split_ifs <;> rfl

theorem vsync_ne_dark : vsyncChain ≠ darkChain := by decide

theorem image_ne_vsync (b : Int) : imageChain b ≠ vsyncChain := by
  intro h
  have h0 := congrArg (fun x => x.lane0.buf) h
  simp [imageChain, vsyncChain] at h0

theorem image_ne_dark (b : Int) : imageChain b ≠ darkChain := by
  intro h
  have h0 := congrArg (fun x => x.lane0.buf) h
  simp [imageChain, darkChain] at h0

/-- The descriptor family chosen by a call, by the line number it stores. -/
theorem DviLine_next (c : Config) (s : DviState) :
    (DviLine c s).1.DviCtrlBufNext =
      if newLine c s < (c.DVI_VSYNC : Int) then vsyncChain
      else if newLine c s < (c.DVI_VSYNC : Int) + c.DVI_VBACK ∨
          (c.DVI_VSYNC : Int) + c.DVI_VBACK + c.DVI_VACT ≤ newLine c s then darkChain
      else imageChain s.DviBufInx := by
  split_ifs with h1 h2
  · rw [DviLine_vsync c s h1]
  · rw [DviLine_dark c s (by omega) h2]
  · rcases Int.emod_two_eq_zero_or_one (newLine c s - c.DVI_VSYNC - c.DVI_VBACK) with h3 | h3
    · rw [DviLine_even c s (by omega) (by omega) h3]
    · rw [DviLine_odd c s (by omega) (by omega) h3]

/-- C1. Band classification: when a call of `DviLine` stores the line number
`n` with `0 <= n < T`, the descriptor family it chains is the vertical-sync
set iff `n < V`, an active-video set iff `V+B <= n < V+B+A`, and the dark set
iff `V <= n < V+B` or `V+B+A <= n < T`; exactly one of the three is chained.
(`T = DVI_VTOTAL`; the statement holds whatever `T` is, in particular for
`T = V+B+A+F`.) -/
theorem band_classification (c : Config) (s : DviState) (n : Int)
    (hn0 : 0 ≤ n) (hnT : n < (c.DVI_VTOTAL : Int))
    (hs : (DviLine c s).1.DviScanLine = n) :
    ((DviLine c s).1.DviCtrlBufNext = vsyncChain ↔ n < (c.DVI_VSYNC : Int)) ∧
    ((∃ b, (DviLine c s).1.DviCtrlBufNext = imageChain b) ↔
      ((c.DVI_VSYNC : Int) + c.DVI_VBACK ≤ n ∧
        n < (c.DVI_VSYNC : Int) + c.DVI_VBACK + c.DVI_VACT)) ∧
    ((DviLine c s).1.DviCtrlBufNext = darkChain ↔
      (((c.DVI_VSYNC : Int) ≤ n ∧ n < (c.DVI_VSYNC : Int) + c.DVI_VBACK) ∨
        ((c.DVI_VSYNC : Int) + c.DVI_VBACK + c.DVI_VACT ≤ n ∧ n < (c.DVI_VTOTAL : Int)))) ∧
    (((DviLine c s).1.DviCtrlBufNext = vsyncChain ∧
        (DviLine c s).1.DviCtrlBufNext ≠ darkChain ∧
        ¬ ∃ b, (DviLine c s).1.DviCtrlBufNext = imageChain b) ∨
      ((DviLine c s).1.DviCtrlBufNext ≠ vsyncChain ∧
        (DviLine c s).1.DviCtrlBufNext = darkChain ∧
        ¬ ∃ b, (DviLine c s).1.DviCtrlBufNext = imageChain b) ∨
      ((DviLine c s).1.DviCtrlBufNext ≠ vsyncChain ∧
        (DviLine c s).1.DviCtrlBufNext ≠ darkChain ∧
        ∃ b, (DviLine c s).1.DviCtrlBufNext = imageChain b)) := by
  rw [DviLine_scanLine] at hs
  rw [DviLine_next, hs]
  have e1 := vsync_ne_dark
  have e2 := image_ne_vsync
  have e3 := image_ne_dark
  split_ifs with h1 h2
  · refine ⟨by simp [h1], ?_, ?_, ?_⟩
    · constructor
      · rintro ⟨b, hb⟩; exact absurd hb.symm (e2 b)
      · intro h; omega
    · constructor
      · intro h; exact absurd h e1
      · intro h; omega
    · left
      exact ⟨rfl, e1, fun ⟨b, hb⟩ => e2 b hb.symm⟩
  · refine ⟨?_, ?_, ?_, ?_⟩
    · constructor
      · intro h; exact absurd h.symm e1
      · intro h; omega
    · constructor
      · rintro ⟨b, hb⟩; exact absurd hb.symm (e3 b)
      · intro h; omega
    · constructor
      · intro _; omega
      · intro _; rfl
    · right; left
      exact ⟨fun h => e1 h.symm, rfl, fun ⟨b, hb⟩ => e3 b hb.symm⟩
  · refine ⟨?_, ?_, ?_, ?_⟩
    · constructor
      · intro h; exact absurd h (e2 _)
      · intro h; omega
    · constructor
      · intro _; omega
      · intro _; exact ⟨_, rfl⟩
    · constructor
      · intro h; exact absurd h (e3 _)
      · intro h; omega
    · right; right
      exact ⟨e2 _, e3 _, ⟨_, rfl⟩⟩

/-- C1, at a sample input: the 640x480 timing, the call that stores line 40
(an image line, `2+33 <= 40 < 2+33+480`). -/
theorem band_classification_witness :
    ((DviLine vga640 { DviInit with DviScanLine := 39 }).1.DviCtrlBufNext = vsyncChain ↔
      (40 : Int) < (vga640.DVI_VSYNC : Int)) ∧
    ((∃ b, (DviLine vga640 { DviInit with DviScanLine := 39 }).1.DviCtrlBufNext = imageChain b) ↔
      ((vga640.DVI_VSYNC : Int) + vga640.DVI_VBACK ≤ 40 ∧
        (40 : Int) < (vga640.DVI_VSYNC : Int) + vga640.DVI_VBACK + vga640.DVI_VACT)) :=
  have h := band_classification vga640 { DviInit with DviScanLine := 39 } 40
    (by decide) (by decide) (by decide)
  ⟨h.1, h.2.1⟩

/-- C2. Line and frame counter step: from a stored line `l` with `0 <= l < T`
(so `T >= 1`), one call stores `l+1` and leaves the frame counter unchanged
when `l+1 < T`, and stores 0 and the frame counter `(f+1) mod 2^32` when
`l+1 = T`; the frame counter changes in no other case. -/
theorem line_frame_step (c : Config) (s : DviState) (hl0 : 0 ≤ s.DviScanLine)
    (hlT : s.DviScanLine < (c.DVI_VTOTAL : Int)) :
    1 ≤ c.DVI_VTOTAL ∧
    (s.DviScanLine + 1 < (c.DVI_VTOTAL : Int) →
      (DviLine c s).1.DviScanLine = s.DviScanLine + 1 ∧
      (DviLine c s).1.DviFrame = s.DviFrame) ∧
    (s.DviScanLine + 1 = (c.DVI_VTOTAL : Int) →
      (DviLine c s).1.DviScanLine = 0 ∧
      (DviLine c s).1.DviFrame = (s.DviFrame + 1) % 2 ^ 32) ∧
    ((DviLine c s).1.DviFrame ≠ s.DviFrame → s.DviScanLine + 1 = (c.DVI_VTOTAL : Int)) := by
  rw [DviLine_scanLine, DviLine_frame]
  unfold newLine newFrame
  refine ⟨by omega, ?_, ?_, ?_⟩
  · intro h
    rw [if_neg (by omega), if_neg (by omega)]
    exact ⟨rfl, rfl⟩
  · intro h
    rw [if_pos (by omega), if_pos (by omega)]
    exact ⟨rfl, rfl⟩
  · intro h
    by_contra hne
    rw [if_neg (by omega)] at h
    exact h rfl

/-- C2, at a sample input: the last line of a 640x480 frame, with the frame
counter at its maximum. -/
theorem line_frame_step_witness :
    (DviLine vga640 { DviInit with DviScanLine := 524, DviFrame := 4294967295 }).1.DviScanLine = 0 ∧
    (DviLine vga640 { DviInit with DviScanLine := 524, DviFrame := 4294967295 }).1.DviFrame =
      (4294967295 + 1) % 2 ^ 32 :=
  (line_frame_step vga640 { DviInit with DviScanLine := 524, DviFrame := 4294967295 }
    (by decide) (by decide)).2.2.1 (by decide)

/-! ### Encoding and buffer switching -/

/-- C4. Line doubling: with `p` the position in the image area of the line a
call stores (`p = line - V - B`), if `0 <= p < A` and `p = 2k` the call invokes
the encoder exactly once, with source line `k` and the current buffer index,
and keeps the index; if `0 <= p < A` and `p = 2k+1` it does not invoke the
encoder and replaces the index `b` by `b xor 1` (a different value); if `p` is
outside `[0, A)` it neither encodes nor changes the index. -/
theorem line_doubling (c : Config) (s : DviState) (k : Int) (hk : 0 ≤ k) :
    ((DviLine c s).1.DviScanLine - c.DVI_VSYNC - c.DVI_VBACK = 2 * k →
      2 * k < (c.DVI_VACT : Int) →
      (DviLine c s).2.DviEncode = [(k, s.DviBufInx)] ∧
      (DviLine c s).1.DviBufInx = s.DviBufInx) ∧
    ((DviLine c s).1.DviScanLine - c.DVI_VSYNC - c.DVI_VBACK = 2 * k + 1 →
      2 * k + 1 < (c.DVI_VACT : Int) →
      (DviLine c s).2.DviEncode = [] ∧
      (DviLine c s).1.DviBufInx = Int.xor s.DviBufInx 1 ∧
      (DviLine c s).1.DviBufInx ≠ s.DviBufInx) ∧
    (((DviLine c s).1.DviScanLine - c.DVI_VSYNC - c.DVI_VBACK < 0 ∨
        (c.DVI_VACT : Int) ≤ (DviLine c s).1.DviScanLine - c.DVI_VSYNC - c.DVI_VBACK) →
      (DviLine c s).2.DviEncode = [] ∧
      (DviLine c s).1.DviBufInx = s.DviBufInx) := by
  rw [DviLine_scanLine]
  refine ⟨?_, ?_, ?_⟩
  · intro hp hA
    rw [DviLine_even c s (by omega) (by omega) (by omega)]
    have : (newLine c s - c.DVI_VSYNC - c.DVI_VBACK) / 2 = k := by omega
    simp [this]
  · intro hp hA
    rw [DviLine_odd c s (by omega) (by omega) (by omega)]
    exact ⟨rfl, rfl, xor_one_ne _⟩
  · intro hp
    by_cases hv : newLine c s < (c.DVI_VSYNC : Int)
    · rw [DviLine_vsync c s hv]
      exact ⟨rfl, rfl⟩
    · rw [DviLine_dark c s (by omega) (by omega)]
      exact ⟨rfl, rfl⟩

/-- C4, at a sample input: 640x480, the calls storing lines 35 (`p = 0`),
36 (`p = 1`) and 1 (outside the image area). -/
theorem line_doubling_witness :
    ((DviLine vga640 { DviInit with DviScanLine := 34 }).2.DviEncode = [(0, 0)] ∧
      (DviLine vga640 { DviInit with DviScanLine := 34 }).1.DviBufInx = 0) ∧
    ((DviLine vga640 { DviInit with DviScanLine := 35 }).2.DviEncode = [] ∧
      (DviLine vga640 { DviInit with DviScanLine := 35 }).1.DviBufInx = Int.xor 0 1 ∧
      (DviLine vga640 { DviInit with DviScanLine := 35 }).1.DviBufInx ≠ 0) ∧
    ((DviLine vga640 DviInit).2.DviEncode = [] ∧ (DviLine vga640 DviInit).1.DviBufInx = 0) :=
  ⟨(line_doubling vga640 { DviInit with DviScanLine := 34 } 0 (by decide)).1
      (by decide) (by decide),
    (line_doubling vga640 { DviInit with DviScanLine := 35 } 0 (by decide)).2.1
      (by decide) (by decide),
    (line_doubling vga640 DviInit 0 (by decide)).2.2 (by decide)⟩

/-- The buffer index after a call, by the line number the call stores. -/
theorem DviLine_bufInx (c : Config) (s : DviState) :
    (DviLine c s).1.DviBufInx = s.DviBufInx ∨
    (DviLine c s).1.DviBufInx = Int.xor s.DviBufInx 1 := by
  unfold DviLine
  simp only []
  split_ifs <;> simp

/-- The buffer index is 0 or 1 on every state reached from `DviInit`. -/
theorem DviRun_bufInx (c : Config) (n : Nat) :
    (DviRun c n).DviBufInx = 0 ∨ (DviRun c n).DviBufInx = 1 := by
  induction n with
  | zero => left; rfl
  | succ n ih =>
    show (DviLine c (DviRun c n)).1.DviBufInx = 0 ∨ (DviLine c (DviRun c n)).1.DviBufInx = 1
    rcases DviLine_bufInx c (DviRun c n) with h | h <;> rcases ih with h0 | h0 <;>
      rw [h, h0] <;> decide

/-- The encoder calls of a call of `DviLine`, if any: one call, on an even
line of the image area, with half the position as source line. -/
theorem DviLine_encode (c : Config) (s : DviState) (x : Int × Int)
    (hx : x ∈ (DviLine c s).2.DviEncode) :
    (c.DVI_VSYNC : Int) + c.DVI_VBACK ≤ newLine c s ∧
    newLine c s < (c.DVI_VSYNC : Int) + c.DVI_VBACK + c.DVI_VACT ∧
    (newLine c s - c.DVI_VSYNC - c.DVI_VBACK) % 2 = 0 ∧
    x = ((newLine c s - c.DVI_VSYNC - c.DVI_VBACK) / 2, s.DviBufInx) := by
  by_cases hv : newLine c s < (c.DVI_VSYNC : Int)
  · rw [DviLine_vsync c s hv] at hx; simp at hx
  by_cases hd : newLine c s < (c.DVI_VSYNC : Int) + c.DVI_VBACK ∨
      (c.DVI_VSYNC : Int) + c.DVI_VBACK + c.DVI_VACT ≤ newLine c s
  · rw [DviLine_dark c s (by omega) hd] at hx; simp at hx
  rcases Int.emod_two_eq_zero_or_one (newLine c s - c.DVI_VSYNC - c.DVI_VBACK) with h3 | h3
  · rw [DviLine_even c s (by omega) (by omega) h3] at hx
    simp at hx
    exact ⟨by omega, by omega, h3, hx⟩
  · rw [DviLine_odd c s (by omega) (by omega) h3] at hx; simp at hx

/-- C5. Encoder index validity: with active height `A = 2*H`, every call
`DviEncode(line, bufinx)` made by `DviLine` on a state reached from `DviInit`
has `0 <= line < H` and `bufinx` 0 or 1. -/
theorem encoder_index_valid (c : Config) (H : Nat) (hA : c.DVI_VACT = 2 * H)
    (n : Nat) (x : Int × Int) (hx : x ∈ (DviLine c (DviRun c n)).2.DviEncode) :
    0 ≤ x.1 ∧ x.1 < (H : Int) ∧ (x.2 = 0 ∨ x.2 = 1) := by
  obtain ⟨h1, h2, _, rfl⟩ := DviLine_encode c _ x hx
  have hb := DviRun_bufInx c n
  refine ⟨by omega, by omega, hb⟩

/-- C5, at a sample input: scenario A (`A = 4`, `H = 2`), the seventh call
after `DviInit`, which stores line 7 (`p = 2`) and encodes source line 1 into
buffer 1. -/
theorem encoder_index_valid_witness :
    ((1, 1) : Int × Int) ∈ (DviLine (scenarioA vga640) (DviRun (scenarioA vga640) 6)).2.DviEncode ∧
    (0 : Int) ≤ 1 ∧ (1 : Int) < (2 : Nat) ∧ ((1 : Int) = 0 ∨ (1 : Int) = 1) :=
  ⟨by decide, encoder_index_valid (scenarioA vga640) 2 (by decide) 6 (1, 1) (by decide)⟩

/-! ### Double buffering -/

/-- The stored line of a state reached from `DviInit` is 0 or lies in `[0, T)`. -/
theorem DviRun_scanLine (c : Config) (n : Nat) :
    0 ≤ (DviRun c n).DviScanLine ∧
    ((DviRun c n).DviScanLine < (c.DVI_VTOTAL : Int) ∨ (DviRun c n).DviScanLine = 0) := by
  induction n with
  | zero => exact ⟨le_refl _, Or.inr rfl⟩
  | succ n ih =>
    show 0 ≤ (DviLine c (DviRun c n)).1.DviScanLine ∧
      ((DviLine c (DviRun c n)).1.DviScanLine < (c.DVI_VTOTAL : Int) ∨
        (DviLine c (DviRun c n)).1.DviScanLine = 0)
    rw [DviLine_scanLine]
    unfold newLine
    split_ifs with h
    · exact ⟨le_refl _, Or.inr rfl⟩
    · exact ⟨by omega, Or.inl (by omega)⟩

/-- What `DviCtrlBufNext` holds on a state reached from `DviInit`: a
vertical-sync or dark set, or, when the stored line is an image line, the
image set of the other buffer index (odd position) or of the current buffer
index (even position). -/
theorem DviRun_next (c : Config) (n : Nat) :
    (DviRun c n).DviCtrlBufNext = vsyncChain ∨
    (DviRun c n).DviCtrlBufNext = darkChain ∨
    ((DviRun c n).DviScanLine - c.DVI_VSYNC - c.DVI_VBACK < (c.DVI_VACT : Int) ∧
      0 ≤ (DviRun c n).DviScanLine - c.DVI_VSYNC - c.DVI_VBACK ∧
      (((DviRun c n).DviScanLine - c.DVI_VSYNC - c.DVI_VBACK) % 2 = 1 ∧
          (DviRun c n).DviCtrlBufNext = imageChain (1 - (DviRun c n).DviBufInx) ∨
        ((DviRun c n).DviScanLine - c.DVI_VSYNC - c.DVI_VBACK) % 2 = 0 ∧
          (DviRun c n).DviCtrlBufNext = imageChain (DviRun c n).DviBufInx)) := by
  cases n with
  | zero => left; rfl
  | succ n =>
    have hb := DviRun_bufInx c n
    show (DviLine c (DviRun c n)).1.DviCtrlBufNext = vsyncChain ∨
      (DviLine c (DviRun c n)).1.DviCtrlBufNext = darkChain ∨
      ((DviLine c (DviRun c n)).1.DviScanLine - c.DVI_VSYNC - c.DVI_VBACK < (c.DVI_VACT : Int) ∧
        0 ≤ (DviLine c (DviRun c n)).1.DviScanLine - c.DVI_VSYNC - c.DVI_VBACK ∧
        (((DviLine c (DviRun c n)).1.DviScanLine - c.DVI_VSYNC - c.DVI_VBACK) % 2 = 1 ∧
            (DviLine c (DviRun c n)).1.DviCtrlBufNext =
              imageChain (1 - (DviLine c (DviRun c n)).1.DviBufInx) ∨
          ((DviLine c (DviRun c n)).1.DviScanLine - c.DVI_VSYNC - c.DVI_VBACK) % 2 = 0 ∧
            (DviLine c (DviRun c n)).1.DviCtrlBufNext =
              imageChain (DviLine c (DviRun c n)).1.DviBufInx))
    by_cases hv : newLine c (DviRun c n) < (c.DVI_VSYNC : Int)
    · rw [DviLine_vsync c _ hv]; left; rfl
    by_cases hd : newLine c (DviRun c n) < (c.DVI_VSYNC : Int) + c.DVI_VBACK ∨
        (c.DVI_VSYNC : Int) + c.DVI_VBACK + c.DVI_VACT ≤ newLine c (DviRun c n)
    · rw [DviLine_dark c _ (by omega) hd]; right; left; rfl
    right; right
    rcases Int.emod_two_eq_zero_or_one
      (newLine c (DviRun c n) - c.DVI_VSYNC - c.DVI_VBACK) with h3 | h3
    · rw [DviLine_even c _ (by omega) (by omega) h3]
      exact ⟨by show newLine c (DviRun c n) - _ - _ < _; omega,
        by show 0 ≤ newLine c (DviRun c n) - _ - _; omega, Or.inr ⟨h3, rfl⟩⟩
    · rw [DviLine_odd c _ (by omega) (by omega) h3]
      refine ⟨by show newLine c (DviRun c n) - _ - _ < _; omega,
        by show 0 ≤ newLine c (DviRun c n) - _ - _; omega, Or.inl ⟨h3, ?_⟩⟩
      show imageChain (DviRun c n).DviBufInx = imageChain (1 - Int.xor (DviRun c n).DviBufInx 1)
      rcases hb with h0 | h0 <;> rw [h0] <;> rfl

/-- C3. Double-buffer invariant: under a timing with `T = V+B+A+F` and even
active height, after `DviInit` and any number of calls of `DviLine`, when the
next call invokes the encoder with buffer index `e`, the descriptor set that
this call hands to the DMA (the `DviCtrlBufNext` left by the previous call) is
not the image set of buffer `e`, on any lane. -/
theorem double_buffer (c : Config) (F : Nat)
    (hT : c.DVI_VTOTAL = c.DVI_VSYNC + c.DVI_VBACK + c.DVI_VACT + F)
    (hA : c.DVI_VACT % 2 = 0) (n : Nat) (x : Int × Int)
    (hx : x ∈ (DviLine c (DviRun c n)).2.DviEncode) :
    (DviLine c (DviRun c n)).2.DMA_SetRead ≠ imageChain x.2 ∧
    (DviLine c (DviRun c n)).2.DMA_SetRead.lane0 ≠ (imageChain x.2).lane0 ∧
    (DviLine c (DviRun c n)).2.DMA_SetRead.lane1 ≠ (imageChain x.2).lane1 ∧
    (DviLine c (DviRun c n)).2.DMA_SetRead.lane2 ≠ (imageChain x.2).lane2 := by
  obtain ⟨h1, h2, h3, rfl⟩ := DviLine_encode c _ x hx
  rw [DviLine_setRead]
  have hb := DviRun_bufInx c n
  have hl := DviRun_scanLine c n
  have key : (DviRun c n).DviCtrlBufNext.lane0 ≠ (imageChain (DviRun c n).DviBufInx).lane0 ∧
      (DviRun c n).DviCtrlBufNext.lane1 ≠ (imageChain (DviRun c n).DviBufInx).lane1 ∧
      (DviRun c n).DviCtrlBufNext.lane2 ≠ (imageChain (DviRun c n).DviBufInx).lane2 := by
    rcases DviRun_next c n with h | h | ⟨hp1, hp0, ⟨hodd, h⟩ | ⟨hev, h⟩⟩
    · rw [h]; simp [vsyncChain, imageChain]
    · rw [h]; simp [darkChain, imageChain]
    · rw [h]
      simp only [imageChain, ne_eq, CbPtr.mk.injEq, true_and]
      refine ⟨by omega, by omega, by omega⟩
    · exfalso
      unfold newLine at h1 h2 h3
      split_ifs at h1 h2 h3 <;> omega
  refine ⟨fun h => key.1 (by rw [h]), key⟩

/-- C3, at a sample input: scenario A, the seventh call after `DviInit`, which
encodes into buffer 1 while handing the image set of buffer 0 to the DMA. -/
theorem double_buffer_witness :
    ((1, 1) : Int × Int) ∈ (DviLine (scenarioA vga640) (DviRun (scenarioA vga640) 6)).2.DviEncode ∧
    (DviLine (scenarioA vga640) (DviRun (scenarioA vga640) 6)).2.DMA_SetRead = imageChain 0 ∧
    (DviLine (scenarioA vga640) (DviRun (scenarioA vga640) 6)).2.DMA_SetRead ≠ imageChain 1 :=
  ⟨by decide, by decide,
    (double_buffer (scenarioA vga640) 1 (by decide) (by decide) 6 (1, 1) (by decide)).1⟩

/-! ### The descriptor chains written by `DviBufInit` -/

/-- The vertical-sync chain of lane 0. -/
theorem chain_sync (k : Sdk) (c : Config) :
    chainAt (DviBufInit k c) 4 ⟨.DviLineBufSync, 0⟩ =
      [some ⟨.addrCtrlSyms 2, .addrTxf (DVI_SM c 0), .num (c.DVI_HFRONT / 2),
          .num (ctrlWord k c 0 2 false)⟩,
       some ⟨.addrCtrlSyms 3, .addrTxf (DVI_SM c 0), .num (c.DVI_HSYNC / 2),
          .num (ctrlWord k c 0 2 false)⟩,
       some ⟨.addrCtrlSyms 2, .addrTxf (DVI_SM c 0), .num (c.DVI_HBACK / 2),
          .num (ctrlWord k c 0 2 true)⟩,
       some ⟨.addrCtrlSyms 2, .addrTxf (DVI_SM c 0), .num (c.DVI_HACT / 2),
          .num (ctrlWord k c 0 2 false)⟩] := by
  unfold DviBufInit
  simp only [DviSetCb, imgLoop0, imgLoop12, List.append_assoc, List.cons_append,
    List.nil_append, List.append_nil]
  rfl

/-- The dark-line chain of lane 0. -/
theorem chain_dark0 (k : Sdk) (c : Config) :
    chainAt (DviBufInit k c) 4 ⟨.DviLineBufDark0, 0⟩ =
      [some ⟨.addrCtrlSyms 0, .addrTxf (DVI_SM c 0), .num (c.DVI_HFRONT / 2),
          .num (ctrlWord k c 0 2 false)⟩,
       some ⟨.addrCtrlSyms 1, .addrTxf (DVI_SM c 0), .num (c.DVI_HSYNC / 2),
          .num (ctrlWord k c 0 2 false)⟩,
       some ⟨.addrCtrlSyms 0, .addrTxf (DVI_SM c 0), .num (c.DVI_HBACK / 2),
          .num (ctrlWord k c 0 2 true)⟩,
       some ⟨.addrCtrlSyms 4, .addrTxf (DVI_SM c 0), .num (c.DVI_HACT / 2),
          .num (ctrlWord k c 0 2 false)⟩] := by
  unfold DviBufInit
  simp only [DviSetCb, imgLoop0, imgLoop12, List.append_assoc, List.cons_append,
    List.nil_append, List.append_nil]
  rfl

/-- The dark-line chains of lanes 1 and 2 (the two halves of `DviLineBufDark12`). -/
theorem chain_dark12 (k : Sdk) (c : Config) :
    chainAt (DviBufInit k c) 2 ⟨.DviLineBufDark12, 0⟩ =
      [some ⟨.addrCtrlSyms 0, .addrTxf (DVI_SM c 1),
          .num ((c.DVI_HFRONT + c.DVI_HSYNC + c.DVI_HBACK) / 2), .num (ctrlWord k c 1 2 false)⟩,
       some ⟨.addrCtrlSyms 0, .addrTxf (DVI_SM c 1), .num (c.DVI_HACT / 2),
          .num (ctrlWord k c 1 2 false)⟩] ∧
    chainAt (DviBufInit k c) 2 ⟨.DviLineBufDark12, 8⟩ =
      [some ⟨.addrCtrlSyms 0, .addrTxf (DVI_SM c 2),
          .num ((c.DVI_HFRONT + c.DVI_HSYNC + c.DVI_HBACK) / 2), .num (ctrlWord k c 2 2 false)⟩,
       some ⟨.addrCtrlSyms 0, .addrTxf (DVI_SM c 2), .num (c.DVI_HACT / 2),
          .num (ctrlWord k c 2 2 false)⟩] := by
  unfold DviBufInit
  simp only [DviSetCb, imgLoop0, imgLoop12, List.append_assoc, List.cons_append,
    List.nil_append, List.append_nil]
  exact ⟨rfl, rfl⟩

/-- The image-line chains of lane 0, for data buffers 0 and 1. -/
theorem chain_img0 (k : Sdk) (c : Config) :
    chainAt (DviBufInit k c) 4 ⟨.DviLineBufImg0, 0⟩ =
      [some ⟨.addrCtrlSyms 0, .addrTxf (DVI_SM c 0), .num (c.DVI_HFRONT / 2),
          .num (ctrlWord k c 0 2 false)⟩,
       some ⟨.addrCtrlSyms 1, .addrTxf (DVI_SM c 0), .num (c.DVI_HSYNC / 2),
          .num (ctrlWord k c 0 2 false)⟩,
       some ⟨.addrCtrlSyms 0, .addrTxf (DVI_SM c 0), .num (c.DVI_HBACK / 2),
          .num (ctrlWord k c 0 2 true)⟩,
       some ⟨.addrLineBuf 0, .addrTxf (DVI_SM c 0), .num (c.DVI_HACT / 2),
          .num (ctrlWord k c 0 0 false)⟩] ∧
    chainAt (DviBufInit k c) 4 ⟨.DviLineBufImg0, 16⟩ =
      [some ⟨.addrCtrlSyms 0, .addrTxf (DVI_SM c 0), .num (c.DVI_HFRONT / 2),
          .num (ctrlWord k c 0 2 false)⟩,
       some ⟨.addrCtrlSyms 1, .addrTxf (DVI_SM c 0), .num (c.DVI_HSYNC / 2),
          .num (ctrlWord k c 0 2 false)⟩,
       some ⟨.addrCtrlSyms 0, .addrTxf (DVI_SM c 0), .num (c.DVI_HBACK / 2),
          .num (ctrlWord k c 0 2 true)⟩,
       some ⟨.addrLineBuf (0 + DBUF_SIZE c / 4), .addrTxf (DVI_SM c 0), .num (c.DVI_HACT / 2),
          .num (ctrlWord k c 0 0 false)⟩] := by
  unfold DviBufInit
  simp only [DviSetCb, imgLoop0, imgLoop12, List.append_assoc, List.cons_append,
    List.nil_append, List.append_nil]
  exact ⟨rfl, rfl⟩

/-- The image-line chains of lane 1, for data buffers 0 and 1. -/
theorem chain_img1 (k : Sdk) (c : Config) :
    chainAt (DviBufInit k c) 2 ⟨.DviLineBufImg12, 0⟩ =
      [some ⟨.addrCtrlSyms 0, .addrTxf (DVI_SM c 1),
          .num ((c.DVI_HFRONT + c.DVI_HSYNC + c.DVI_HBACK) / 2), .num (ctrlWord k c 1 2 false)⟩,
       some ⟨.addrLineBuf (0 + DBUF_SIZE c / 4 + DBUF_SIZE c / 4), .addrTxf (DVI_SM c 1),
          .num (c.DVI_HACT / 2), .num (ctrlWord k c 1 0 false)⟩] ∧
    chainAt (DviBufInit k c) 2 ⟨.DviLineBufImg12, 8⟩ =
      [some ⟨.addrCtrlSyms 0, .addrTxf (DVI_SM c 1),
          .num ((c.DVI_HFRONT + c.DVI_HSYNC + c.DVI_HBACK) / 2), .num (ctrlWord k c 1 2 false)⟩,
       some ⟨.addrLineBuf (0 + DBUF_SIZE c / 4 + DBUF_SIZE c / 4 + DBUF_SIZE c / 4),
          .addrTxf (DVI_SM c 1), .num (c.DVI_HACT / 2), .num (ctrlWord k c 1 0 false)⟩] := by
  unfold DviBufInit
  simp only [DviSetCb, imgLoop0, imgLoop12, List.append_assoc, List.cons_append,
    List.nil_append, List.append_nil]
  exact ⟨rfl, rfl⟩

/-- The image-line chains of lane 2, for data buffers 0 and 1. -/
theorem chain_img2 (k : Sdk) (c : Config) :
    chainAt (DviBufInit k c) 2 ⟨.DviLineBufImg12, 16⟩ =
      [some ⟨.addrCtrlSyms 0, .addrTxf (DVI_SM c 2),
          .num ((c.DVI_HFRONT + c.DVI_HSYNC + c.DVI_HBACK) / 2), .num (ctrlWord k c 2 2 false)⟩,
       some ⟨.addrLineBuf
            (0 + DBUF_SIZE c / 4 + DBUF_SIZE c / 4 + DBUF_SIZE c / 4 + DBUF_SIZE c / 4),
          .addrTxf (DVI_SM c 2), .num (c.DVI_HACT / 2), .num (ctrlWord k c 2 0 false)⟩] ∧
    chainAt (DviBufInit k c) 2 ⟨.DviLineBufImg12, 24⟩ =
      [some ⟨.addrCtrlSyms 0, .addrTxf (DVI_SM c 2),
          .num ((c.DVI_HFRONT + c.DVI_HSYNC + c.DVI_HBACK) / 2), .num (ctrlWord k c 2 2 false)⟩,
       some ⟨.addrLineBuf
            (0 + DBUF_SIZE c / 4 + DBUF_SIZE c / 4 + DBUF_SIZE c / 4 + DBUF_SIZE c / 4 +
              DBUF_SIZE c / 4),
          .addrTxf (DVI_SM c 2), .num (c.DVI_HACT / 2), .num (ctrlWord k c 2 0 false)⟩] := by
  unfold DviBufInit
  simp only [DviSetCb, imgLoop0, imgLoop12, List.append_assoc, List.cons_append,
    List.nil_append, List.append_nil]
  exact ⟨rfl, rfl⟩

/-- The word indices written in each of the two lane-0 buffers of the
vertical-sync and dark lines: 0 to 15, each once, in increasing order. -/
theorem written_sync_dark0 (k : Sdk) (c : Config) :
    ((DviBufInit k c).filter (fun w => decide (w.1.buf = .DviLineBufSync))).map
        (fun w => w.1.off) = (List.range 16).map (fun i => (i : Int)) ∧
    ((DviBufInit k c).filter (fun w => decide (w.1.buf = .DviLineBufDark0))).map
        (fun w => w.1.off) = (List.range 16).map (fun i => (i : Int)) := by
  unfold DviBufInit
  simp only [DviSetCb, imgLoop0, imgLoop12, List.append_assoc, List.cons_append,
    List.nil_append, List.append_nil]
  exact ⟨rfl, rfl⟩

/-- C6. Descriptor chains of the sync lane (lane 0) after `DviBufInit`: the
vertical-sync chain is the four segments reading `DviCtrlSyms[2]`,
`DviCtrlSyms[3]`, `DviCtrlSyms[2]`, `DviCtrlSyms[2]` with transfer counts
`HFRONT/2`, `HSYNC/2`, `HBACK/2`, `HACT/2`; the dark-line chain is the four
segments reading `DviCtrlSyms[0]`, `[1]`, `[0]`, `[4]` with the same counts;
each of the two buffers is written at the 16 word indices 0..15 and nowhere
else (four segments of four words); every segment writes to the transfer FIFO
of the state machine of lane 0 and has the control word of `DviSetCb` for
lane 0 with ring order 2 (a 4-byte ring, on the read side), the third one with
`irq` set. -/
theorem sync_lane_chains (k : Sdk) (c : Config) :
    chainAt (DviBufInit k c) 4 ⟨.DviLineBufSync, 0⟩ =
      [some ⟨.addrCtrlSyms 2, .addrTxf (DVI_SM c 0), .num (c.DVI_HFRONT / 2),
          .num (ctrlWord k c 0 2 false)⟩,
       some ⟨.addrCtrlSyms 3, .addrTxf (DVI_SM c 0), .num (c.DVI_HSYNC / 2),
          .num (ctrlWord k c 0 2 false)⟩,
       some ⟨.addrCtrlSyms 2, .addrTxf (DVI_SM c 0), .num (c.DVI_HBACK / 2),
          .num (ctrlWord k c 0 2 true)⟩,
       some ⟨.addrCtrlSyms 2, .addrTxf (DVI_SM c 0), .num (c.DVI_HACT / 2),
          .num (ctrlWord k c 0 2 false)⟩] ∧
    chainAt (DviBufInit k c) 4 ⟨.DviLineBufDark0, 0⟩ =
      [some ⟨.addrCtrlSyms 0, .addrTxf (DVI_SM c 0), .num (c.DVI_HFRONT / 2),
          .num (ctrlWord k c 0 2 false)⟩,
       some ⟨.addrCtrlSyms 1, .addrTxf (DVI_SM c 0), .num (c.DVI_HSYNC / 2),
          .num (ctrlWord k c 0 2 false)⟩,
       some ⟨.addrCtrlSyms 0, .addrTxf (DVI_SM c 0), .num (c.DVI_HBACK / 2),
          .num (ctrlWord k c 0 2 true)⟩,
       some ⟨.addrCtrlSyms 4, .addrTxf (DVI_SM c 0), .num (c.DVI_HACT / 2),
          .num (ctrlWord k c 0 2 false)⟩] ∧
    ((DviBufInit k c).filter (fun w => decide (w.1.buf = .DviLineBufSync))).map
        (fun w => w.1.off) = (List.range 16).map (fun i => (i : Int)) ∧
    ((DviBufInit k c).filter (fun w => decide (w.1.buf = .DviLineBufDark0))).map
        (fun w => w.1.off) = (List.range 16).map (fun i => (i : Int)) :=
  ⟨chain_sync k c, chain_dark0 k c, written_sync_dark0 k c⟩

/-! ### The interrupt flag of the segments -/

theorem or_and_left_self (q r : Nat) : (q ||| r) &&& q = q := by
  apply Nat.eq_of_testBit_eq
  intro i
  simp only [Nat.testBit_and, Nat.testBit_or]
  cases q.testBit i <;> simp

/-- Without `irq`, the control word is the one with `irq` plus `DMA_CTRL_QUIET`. -/
theorem ctrlWord_false (k : Sdk) (c : Config) (lane ring : Nat) :
    ctrlWord k c lane ring false = k.DMA_CTRL_QUIET ||| ctrlWord k c lane ring true := by
  simp [ctrlWord, Nat.or_assoc]

/-- A segment built without `irq` carries the QUIET bit. -/
theorem isQuiet_false (k : Sdk) (c : Config) (lane ring : Nat) :
    isQuiet k (.num (ctrlWord k c lane ring false)) = some true := by
  simp [isQuiet, ctrlWord_false, or_and_left_self]

/-- A segment built with `irq` lacks the QUIET bit, when that bit is not part
of the other fields of the control word. -/
theorem isQuiet_true (k : Sdk) (c : Config) (lane ring : Nat)
    (hq : k.DMA_CTRL_QUIET ≠ 0)
    (hsep : ctrlWord k c lane ring true &&& k.DMA_CTRL_QUIET = 0) :
    isQuiet k (.num (ctrlWord k c lane ring true)) = some false := by
  simp only [isQuiet, hsep]
  rw [if_neg (fun h => hq h.symm)]
  simp

/-- C7. One interrupt per line: provided `DMA_CTRL_QUIET` is a non-zero bit
pattern disjoint from the other fields of the control words used (lanes 0-2,
ring orders 0 and 2), after `DviBufInit` each lane-0 chain (vertical sync,
dark, image buffer 0, image buffer 1) has four segments of which exactly the
third lacks the QUIET bit, the other three carrying it; and each chain of
lanes 1 and 2 (dark and image buffers 0 and 1) has two segments, both carrying
the QUIET bit. -/
theorem one_interrupt_per_line (k : Sdk) (c : Config)
    (hq : k.DMA_CTRL_QUIET ≠ 0)
    (hsep : ∀ lane ring : Nat, lane < 3 → (ring = 0 ∨ ring = 2) →
      ctrlWord k c lane ring true &&& k.DMA_CTRL_QUIET = 0) :
    (∀ p ∈ [(⟨.DviLineBufSync, 0⟩ : CbPtr), ⟨.DviLineBufDark0, 0⟩, ⟨.DviLineBufImg0, 0⟩,
        ⟨.DviLineBufImg0, 16⟩],
      quietFlags k (DviBufInit k c) 4 p = [some true, some true, some false, some true]) ∧
    (∀ p ∈ [(⟨.DviLineBufDark12, 0⟩ : CbPtr), ⟨.DviLineBufDark12, 8⟩, ⟨.DviLineBufImg12, 0⟩,
        ⟨.DviLineBufImg12, 8⟩, ⟨.DviLineBufImg12, 16⟩, ⟨.DviLineBufImg12, 24⟩],
      quietFlags k (DviBufInit k c) 2 p = [some true, some true]) := by
  have h02 := isQuiet_true k c 0 2 hq (hsep 0 2 (by decide) (Or.inr rfl))
  constructor
  · intro p hp
    simp only [List.mem_cons, List.mem_singleton, List.not_mem_nil, or_false] at hp
    rcases hp with rfl | rfl | rfl | rfl
    · simp [quietFlags, chain_sync, isQuiet_false, h02]
    · simp [quietFlags, chain_dark0, isQuiet_false, h02]
    · simp [quietFlags, (chain_img0 k c).1, isQuiet_false, h02]
    · simp [quietFlags, (chain_img0 k c).2, isQuiet_false, h02]
  · intro p hp
    simp only [List.mem_cons, List.mem_singleton, List.not_mem_nil, or_false] at hp
    rcases hp with rfl | rfl | rfl | rfl | rfl | rfl
    · simp [quietFlags, (chain_dark12 k c).1, isQuiet_false]
    · simp [quietFlags, (chain_dark12 k c).2, isQuiet_false]
    · simp [quietFlags, (chain_img1 k c).1, isQuiet_false]
    · simp [quietFlags, (chain_img1 k c).2, isQuiet_false]
    · simp [quietFlags, (chain_img2 k c).1, isQuiet_false]
    · simp [quietFlags, (chain_img2 k c).2, isQuiet_false]

/-- C7, at a sample input: the RP2040 control-word layout and the 640x480
timing; the vertical-sync chain of lane 0 and the dark chain of lane 1. -/
theorem one_interrupt_per_line_witness :
    quietFlags rp2040 (DviBufInit rp2040 vga640) 4 ⟨.DviLineBufSync, 0⟩ =
      [some true, some true, some false, some true] ∧
    quietFlags rp2040 (DviBufInit rp2040 vga640) 2 ⟨.DviLineBufDark12, 0⟩ =
      [some true, some true] :=
  have h := one_interrupt_per_line rp2040 vga640 (by decide)
    (by
      intro lane ring hl hr
      rcases hr with rfl | rfl <;> interval_cases lane <;> decide)
  ⟨h.1 _ (by simp), h.2 _ (by simp)⟩

/-! ### Shutdown order -/

/-- The positions of the first abort of each channel in `DviTerm`. -/
theorem firstAbort_DviTerm (c : Config) :
    firstAbort (DviTerm c) (DVI_DMA_DB c 0) = 1 ∧
    firstAbort (DviTerm c) (DVI_DMA_CB c 0) = 2 ∧
    firstAbort (DviTerm c) (DVI_DMA_CB c 1) = 4 ∧
    firstAbort (DviTerm c) (DVI_DMA_DB c 1) = 5 ∧
    firstAbort (DviTerm c) (DVI_DMA_CB c 2) = 6 ∧
    firstAbort (DviTerm c) (DVI_DMA_DB c 2) = 7 := by
  simp [firstAbort, DviTerm, DVI_DMA_DB, DVI_DMA_CB, DVI_DMA_CB0, DVI_DMA_DB0, DVI_DMA_CB1,
    DVI_DMA_DB1, DVI_DMA_CB2, DVI_DMA_DB2, List.indexOf_cons, Nat.add_assoc]

/-- C8 on the code. The calls of `DviTerm` are: disable the output, seven
channel aborts, then interrupt disable, interrupt clear and serializer reset.
The data channel is aborted before the control channel on lane 0 only: on
lanes 1 and 2 the control channel is aborted first (positions 4 and 6), the
data channel after it (positions 5 and 7). -/
theorem abort_order (c : Config) :
    (∃ aborts : List Nat,
      DviTerm c = [HwOp.DviDisable] ++ aborts.map HwOp.DMA_Abort ++
        [HwOp.NVIC_IRQDisable, HwOp.DMA_IRQ1Disable (DVI_DMA_DB0 c),
          HwOp.DMA_IRQ1Clear (DVI_DMA_DB0 c), HwOp.PioInit]) ∧
    dataAbortedFirst c 0 ∧ ¬ dataAbortedFirst c 1 ∧ ¬ dataAbortedFirst c 2 := by
  obtain ⟨h1, h2, h3, h4, h5, h6⟩ := firstAbort_DviTerm c
  refine ⟨⟨[DVI_DMA_DB0 c, DVI_DMA_CB0 c, DVI_DMA_DB0 c, DVI_DMA_CB1 c, DVI_DMA_DB1 c,
    DVI_DMA_CB2 c, DVI_DMA_DB2 c], rfl⟩, ?_, ?_, ?_⟩
  · unfold dataAbortedFirst; rw [h1, h2]; decide
  · unfold dataAbortedFirst; rw [h3, h4]; decide
  · unfold dataAbortedFirst; rw [h5, h6]; decide

/-! ### Scenario A -/

theorem bandOf_imageChain (b : Int) : bandOf (imageChain b) = some .Active := by
  unfold bandOf
  rw [if_neg (image_ne_vsync b), if_neg (image_ne_dark b)]
  have h : (imageChain b).lane0.off / 16 = b := by
    show 16 * b / 16 = b
    omega
  rw [h, if_pos rfl]

/-- The band chosen by a call, by the line number the call stores. -/
theorem bandOf_DviLine (c : Config) (s : DviState) :
    bandOf (DviLine c s).1.DviCtrlBufNext =
      some (if newLine c s < (c.DVI_VSYNC : Int) then .VSync
        else if newLine c s < (c.DVI_VSYNC : Int) + c.DVI_VBACK ∨
          (c.DVI_VSYNC : Int) + c.DVI_VBACK + c.DVI_VACT ≤ newLine c s then .Blanking
        else .Active) := by
  rw [DviLine_next]
  split_ifs
  · rfl
  · rfl
  · exact bandOf_imageChain _

/-- Each call hands to the DMA what the call before it has chosen. -/
theorem committed_cons (c : Config) (n : Nat) (s : DviState) :
    committedBandsOf (DviLines c (n + 1) s) =
      bandOf s.DviCtrlBufNext :: (bandsOf (DviLines c n s)) := by
  induction n generalizing s with
  | zero => simp [committedBandsOf, bandsOf, DviLines, DviLine_setRead]
  | succ n ih =>
    have h := ih (DviLine c s).1
    simp only [committedBandsOf, bandsOf, DviLines, List.map_cons, DviLine_setRead] at h ⊢
    rw [h]

/-- C9 as stated fails: in scenario A, from `DviInit` (stored line 0), the
bands chosen by the first nine calls are not VSync, VSync, Blanking, Blanking,
Blanking, Active, Active, Active, Active: the second call stores line 2 and
chooses the dark set. -/
theorem scenarioA_claimed_bands_fail :
    (bandsOf (DviLines (scenarioA vga640) 10 DviInit)).take 9 ≠
      [some .VSync, some .VSync, some .Blanking, some .Blanking, some .Blanking,
        some .Active, some .Active, some .Active, some .Active] ∧
    (bandsOf (DviLines (scenarioA vga640) 10 DviInit))[1]? = some (some .Blanking) := by
  decide

/-- C9, amended. In scenario A (V=2, B=3, A=4, front porch 1, T=10), from a
state with stored line 0, ten successive calls store the lines 1, ..., 9, 0;
the bands they choose are, in order, VSync, Blanking, Blanking, Blanking,
Active, Active, Active, Active, Blanking, VSync; the frame counter is unchanged
by the first nine calls and the tenth call, which stores line 0, makes it
`(f+1) mod 2^32`. The bands of the descriptor sets the ten calls hand to the
DMA are the band of the start state's `DviCtrlBufNext` (VSync after `DviInit`)
followed by VSync, Blanking, Blanking, Blanking, Active, Active, Active,
Active. -/
theorem scenarioA_bands (c : Config) (f : Nat) (b : Int) (nx : Lanes) :
    bandsOf (DviLines (scenarioA c) 10 ⟨0, f, b, nx⟩) =
      [some .VSync, some .Blanking, some .Blanking, some .Blanking, some .Active,
        some .Active, some .Active, some .Active, some .Blanking, some .VSync] ∧
    (DviLines (scenarioA c) 10 ⟨0, f, b, nx⟩).map (fun x => (x.1.DviScanLine, x.1.DviFrame)) =
      [(1, f), (2, f), (3, f), (4, f), (5, f), (6, f), (7, f), (8, f), (9, f),
        (0, (f + 1) % 2 ^ 32)] ∧
    committedBandsOf (DviLines (scenarioA c) 10 ⟨0, f, b, nx⟩) =
      [bandOf nx, some .VSync, some .Blanking, some .Blanking, some .Blanking, some .Active,
        some .Active, some .Active, some .Active, some .Blanking] ∧
    bandOf DviInit.DviCtrlBufNext = some .VSync := by
  refine ⟨?_, ?_, ?_, by decide⟩
  · simp [DviLines, bandsOf, bandOf_DviLine, DviLine_scanLine, newLine, scenarioA]
  · simp [DviLines, DviLine_scanLine, DviLine_frame, newLine, newFrame, scenarioA]
  · rw [committed_cons]
    simp [DviLines, bandsOf, bandOf_DviLine, DviLine_scanLine, newLine, scenarioA]

/-! ### Scenario C: an image area of one source line -/

/-- With a two-line image area, the encoder call of one call of `DviLine`. -/
theorem step_encode_two (c : Config) (hA : c.DVI_VACT = 2) (s : DviState) :
    (DviLine c s).2.DviEncode =
      if newLine c s = (c.DVI_VSYNC : Int) + c.DVI_VBACK then [(0, s.DviBufInx)] else [] := by
  by_cases hv : newLine c s < (c.DVI_VSYNC : Int)
  · rw [DviLine_vsync c s hv, if_neg (by omega)]
  by_cases hd : newLine c s < (c.DVI_VSYNC : Int) + c.DVI_VBACK ∨
      (c.DVI_VSYNC : Int) + c.DVI_VBACK + c.DVI_VACT ≤ newLine c s
  · rw [DviLine_dark c s (by omega) hd, if_neg (by omega)]
  rcases Int.emod_two_eq_zero_or_one (newLine c s - c.DVI_VSYNC - c.DVI_VBACK) with h3 | h3
  · rw [DviLine_even c s (by omega) (by omega) h3, if_pos (by omega)]
    have : (newLine c s - c.DVI_VSYNC - c.DVI_VBACK) / 2 = 0 := by omega
    simp [this]
  · rw [DviLine_odd c s (by omega) (by omega) h3, if_neg (by omega)]

/-- With a two-line image area, the buffer index after one call of `DviLine`. -/
theorem step_toggle_two (c : Config) (hA : c.DVI_VACT = 2) (s : DviState) :
    (DviLine c s).1.DviBufInx =
      if newLine c s = (c.DVI_VSYNC : Int) + c.DVI_VBACK + 1 then Int.xor s.DviBufInx 1
      else s.DviBufInx := by
  by_cases hv : newLine c s < (c.DVI_VSYNC : Int)
  · rw [DviLine_vsync c s hv, if_neg (by omega)]
  by_cases hd : newLine c s < (c.DVI_VSYNC : Int) + c.DVI_VBACK ∨
      (c.DVI_VSYNC : Int) + c.DVI_VBACK + c.DVI_VACT ≤ newLine c s
  · rw [DviLine_dark c s (by omega) hd, if_neg (by omega)]
  rcases Int.emod_two_eq_zero_or_one (newLine c s - c.DVI_VSYNC - c.DVI_VBACK) with h3 | h3
  · rw [DviLine_even c s (by omega) (by omega) h3, if_neg (by omega)]
  · rw [DviLine_odd c s (by omega) (by omega) h3, if_pos (by omega)]

/-- With a two-line image area, the encoding and switching calls among `m <= T`
successive calls from a stored line `l` in `[0, T)`: the calls store the lines
`l+1, ..., T-1, 0, 1, ...`, each at most once. -/
theorem frame_walk (c : Config) (hA : c.DVI_VACT = 2) (m : Nat) :
    ∀ s : DviState, 0 ≤ s.DviScanLine → s.DviScanLine < (c.DVI_VTOTAL : Int) →
      (m : Int) ≤ (c.DVI_VTOTAL : Int) →
      encodeLines (DviLines c m s) =
        (if (s.DviScanLine < (c.DVI_VSYNC : Int) + c.DVI_VBACK ∧
              (c.DVI_VSYNC : Int) + c.DVI_VBACK ≤ s.DviScanLine + m ∧
              (c.DVI_VSYNC : Int) + c.DVI_VBACK < c.DVI_VTOTAL) ∨
            (c.DVI_VSYNC : Int) + c.DVI_VBACK + c.DVI_VTOTAL ≤ s.DviScanLine + m
          then [(c.DVI_VSYNC : Int) + c.DVI_VBACK] else []) ∧
      (encodeCalls (DviLines c m s)).map Prod.fst =
        (if (s.DviScanLine < (c.DVI_VSYNC : Int) + c.DVI_VBACK ∧
              (c.DVI_VSYNC : Int) + c.DVI_VBACK ≤ s.DviScanLine + m ∧
              (c.DVI_VSYNC : Int) + c.DVI_VBACK < c.DVI_VTOTAL) ∨
            (c.DVI_VSYNC : Int) + c.DVI_VBACK + c.DVI_VTOTAL ≤ s.DviScanLine + m
          then [0] else []) ∧
      toggleLines s (DviLines c m s) =
        (if (s.DviScanLine < (c.DVI_VSYNC : Int) + c.DVI_VBACK + 1 ∧
              (c.DVI_VSYNC : Int) + c.DVI_VBACK + 1 ≤ s.DviScanLine + m ∧
              (c.DVI_VSYNC : Int) + c.DVI_VBACK + 1 < c.DVI_VTOTAL) ∨
            (c.DVI_VSYNC : Int) + c.DVI_VBACK + 1 + c.DVI_VTOTAL ≤ s.DviScanLine + m
          then [(c.DVI_VSYNC : Int) + c.DVI_VBACK + 1] else []) := by
  induction m with
  | zero =>
    intro s h0 hT _
    refine ⟨?_, ?_, ?_⟩
    · rw [if_neg (by omega)]; rfl
    · rw [if_neg (by omega)]; rfl
    · rw [if_neg (by omega)]; rfl
  | succ m ih =>
    intro s h0 hT hm
    have hl : (DviLine c s).1.DviScanLine = newLine c s := DviLine_scanLine c s
    have hn : newLine c s = if s.DviScanLine + 1 ≥ (c.DVI_VTOTAL : Int) then 0
        else s.DviScanLine + 1 := rfl
    have hn0 : 0 ≤ newLine c s := by rw [hn]; split_ifs <;> omega
    have hnT : newLine c s < (c.DVI_VTOTAL : Int) := by rw [hn]; split_ifs <;> omega
    obtain ⟨i1, i2, i3⟩ := ih (DviLine c s).1 (by rw [hl]; exact hn0) (by rw [hl]; exact hnT)
      (by omega)
    rw [hl] at i1 i2 i3
    have he := step_encode_two c hA s
    have ht := step_toggle_two c hA s
    push_cast
    refine ⟨?_, ?_, ?_⟩
    · show encodeLines (DviLine c s :: DviLines c m (DviLine c s).1) = _
      have : encodeLines (DviLine c s :: DviLines c m (DviLine c s).1) =
          (if newLine c s = (c.DVI_VSYNC : Int) + c.DVI_VBACK
            then [(c.DVI_VSYNC : Int) + c.DVI_VBACK] else []) ++
          encodeLines (DviLines c m (DviLine c s).1) := by
        by_cases h1 : newLine c s = (c.DVI_VSYNC : Int) + c.DVI_VBACK
        · simp [encodeLines, List.filter_cons, he, h1, hl]
        · simp [encodeLines, List.filter_cons, he, h1]
      rw [this, i1, hn]
      split_ifs <;> first | rfl | (exfalso; omega)
    · show (encodeCalls (DviLine c s :: DviLines c m (DviLine c s).1)).map Prod.fst = _
      have : (encodeCalls (DviLine c s :: DviLines c m (DviLine c s).1)).map Prod.fst =
          (if newLine c s = (c.DVI_VSYNC : Int) + c.DVI_VBACK then [0] else []) ++
          (encodeCalls (DviLines c m (DviLine c s).1)).map Prod.fst := by
        by_cases h1 : newLine c s = (c.DVI_VSYNC : Int) + c.DVI_VBACK
        · simp [encodeCalls, List.flatMap_cons, he, h1]
        · simp [encodeCalls, List.flatMap_cons, he, h1]
      rw [this, i2, hn]
      split_ifs <;> first | rfl | (exfalso; omega)
    · show toggleLines s (DviLine c s :: DviLines c m (DviLine c s).1) = _
      have : toggleLines s (DviLine c s :: DviLines c m (DviLine c s).1) =
          (if newLine c s = (c.DVI_VSYNC : Int) + c.DVI_VBACK + 1
            then [(c.DVI_VSYNC : Int) + c.DVI_VBACK + 1] else []) ++
          toggleLines (DviLine c s).1 (DviLines c m (DviLine c s).1) := by
        have hx := xor_one_ne s.DviBufInx
        by_cases h1 : newLine c s = (c.DVI_VSYNC : Int) + c.DVI_VBACK + 1
        · simp [toggleLines, ht, h1, hl, hx]
        · simp [toggleLines, ht, h1]
      rw [this, i3, hn]
      split_ifs <;> first | rfl | (exfalso; omega)

/-- C10. Scenario C: with an image area one source line tall (two output
lines, `DVI_VACT = 2`) and `T = V+B+A+F`, among any `T` successive calls of
`DviLine` from a stored line in `[0, T)` (a full frame) the encoder is invoked
exactly once, with source line 0, by the call that stores line `V+B` (the
first of the two output lines); the buffer index changes exactly once, in the
call that stores line `V+B+1` (the second output line); no encoder call has
source line 1. -/
theorem one_line_region (c : Config) (F : Nat) (hA : c.DVI_VACT = 2)
    (hT : c.DVI_VTOTAL = c.DVI_VSYNC + c.DVI_VBACK + c.DVI_VACT + F)
    (s : DviState) (h0 : 0 ≤ s.DviScanLine) (hl : s.DviScanLine < (c.DVI_VTOTAL : Int)) :
    (encodeCalls (DviLines c c.DVI_VTOTAL s)).map Prod.fst = [0] ∧
    encodeLines (DviLines c c.DVI_VTOTAL s) = [(c.DVI_VSYNC : Int) + c.DVI_VBACK] ∧
    toggleLines s (DviLines c c.DVI_VTOTAL s) = [(c.DVI_VSYNC : Int) + c.DVI_VBACK + 1] ∧
    ∀ x ∈ encodeCalls (DviLines c c.DVI_VTOTAL s), x.1 ≠ 1 := by
  obtain ⟨i1, i2, i3⟩ := frame_walk c hA c.DVI_VTOTAL s h0 hl (le_refl _)
  have hTi : (c.DVI_VTOTAL : Int) = (c.DVI_VSYNC : Int) + c.DVI_VBACK + 2 + F := by
    rw [hT, hA]; push_cast; ring
  rw [if_pos (by omega)] at i1 i2 i3
  refine ⟨i2, i1, i3, ?_⟩
  intro x hx
  have hm : x.1 ∈ (encodeCalls (DviLines c c.DVI_VTOTAL s)).map Prod.fst :=
    List.mem_map_of_mem _ hx
  rw [i2] at hm
  simp at hm
  rw [hm]
  decide

/-- C10, at a sample input: V=2, B=3, A=2, T=8, the eight calls after `DviInit`. -/
theorem one_line_region_witness :
    (encodeCalls (DviLines (scenarioC vga640) (scenarioC vga640).DVI_VTOTAL DviInit)).map
        Prod.fst = [0] ∧
    encodeLines (DviLines (scenarioC vga640) (scenarioC vga640).DVI_VTOTAL DviInit) =
      [((scenarioC vga640).DVI_VSYNC : Int) + (scenarioC vga640).DVI_VBACK] ∧
    toggleLines DviInit (DviLines (scenarioC vga640) (scenarioC vga640).DVI_VTOTAL DviInit) =
      [((scenarioC vga640).DVI_VSYNC : Int) + (scenarioC vga640).DVI_VBACK + 1] :=
  have h := one_line_region (scenarioC vga640) 1 (by decide) (by decide) DviInit
    (by decide) (by decide)
  ⟨h.1, h.2.1, h.2.2.1⟩

/-! ### The buffer index of the chained image set -/

/-- C11 as stated fails: in the 640x480 timing, the call that stores line 36
(position 1 of the image area, odd) from buffer index 0 leaves `DviBufInx = 1`
and chains the image set of buffer 0, not the set of the index held after the
call. -/
theorem chained_index_counterexample :
    (DviLine vga640 { DviInit with DviScanLine := 35 }).1.DviScanLine - 2 - 33 = 1 ∧
    (DviLine vga640 { DviInit with DviScanLine := 35 }).1.DviBufInx = 1 ∧
    (DviLine vga640 { DviInit with DviScanLine := 35 }).1.DviCtrlBufNext = imageChain 0 ∧
    (DviLine vga640 { DviInit with DviScanLine := 35 }).1.DviCtrlBufNext ≠
      imageChain (DviLine vga640 { DviInit with DviScanLine := 35 }).1.DviBufInx := by
  decide

/-- C11, amended. For every call of `DviLine` that stores a line of the image
area (position `p = line - V - B` with `0 <= p < A`), the set chained on the
three lanes is the image set of the buffer index held before the call (the
local `bufinx`). On an even position this is also the index held after the
call; on an odd position the index held after the call is `bufinx xor 1`, a
different value, so the chained set is not the set of the index held after. -/
theorem chained_index (c : Config) (s : DviState)
    (h0 : 0 ≤ (DviLine c s).1.DviScanLine - c.DVI_VSYNC - c.DVI_VBACK)
    (hA : (DviLine c s).1.DviScanLine - c.DVI_VSYNC - c.DVI_VBACK < (c.DVI_VACT : Int)) :
    (DviLine c s).1.DviCtrlBufNext = imageChain s.DviBufInx ∧
    (((DviLine c s).1.DviScanLine - c.DVI_VSYNC - c.DVI_VBACK) % 2 = 0 →
      (DviLine c s).1.DviBufInx = s.DviBufInx ∧
      (DviLine c s).1.DviCtrlBufNext = imageChain (DviLine c s).1.DviBufInx) ∧
    (((DviLine c s).1.DviScanLine - c.DVI_VSYNC - c.DVI_VBACK) % 2 = 1 →
      (DviLine c s).1.DviBufInx = Int.xor s.DviBufInx 1 ∧
      (DviLine c s).1.DviBufInx ≠ s.DviBufInx ∧
      (DviLine c s).1.DviCtrlBufNext ≠ imageChain (DviLine c s).1.DviBufInx) := by
  rw [DviLine_scanLine] at h0 hA
  rw [DviLine_scanLine]
  have hn : (DviLine c s).1.DviCtrlBufNext = imageChain s.DviBufInx := by
    rw [DviLine_next, if_neg (by omega), if_neg (by omega)]
  refine ⟨hn, ?_, ?_⟩
  · intro h3
    rw [DviLine_even c s (by omega) (by omega) h3]
    exact ⟨rfl, rfl⟩
  · intro h3
    rw [DviLine_odd c s (by omega) (by omega) h3]
    refine ⟨rfl, xor_one_ne _, ?_⟩
    intro h
    have h1 := congrArg (fun x => x.lane1.off) h
    simp only [imageChain] at h1
    exact xor_one_ne s.DviBufInx (by omega)

/-- C11 amended, at a sample input: 640x480, the calls storing lines 35
(position 0) and 36 (position 1) from buffer index 0. -/
theorem chained_index_witness :
    (DviLine vga640 { DviInit with DviScanLine := 34 }).1.DviCtrlBufNext = imageChain 0 ∧
    (DviLine vga640 { DviInit with DviScanLine := 35 }).1.DviCtrlBufNext = imageChain 0 :=
  ⟨(chained_index vga640 { DviInit with DviScanLine := 34 } (by decide) (by decide)).1,
    (chained_index vga640 { DviInit with DviScanLine := 35 } (by decide) (by decide)).1⟩

/-! ### Ranges of the scan state -/

/-- C12 as stated fails: `DviInit` stores line 0, which is not in `1..T`, and
the call made on the last line of a frame stores 0 again, never `T`. -/
theorem scan_line_range_counterexample :
    (DviRun vga640 0).DviScanLine = 0 ∧
    ¬ (1 ≤ (DviRun vga640 0).DviScanLine ∧
        (DviRun vga640 0).DviScanLine ≤ (vga640.DVI_VTOTAL : Int)) ∧
    (DviLine vga640 { DviInit with DviScanLine := 524 }).1.DviScanLine = 0 := by
  decide

/-- C12, amended. After `DviInit` and after every finite sequence of calls of
`DviLine`, with `T >= 1`, the stored line lies in `0..T-1` and the stored
buffer index is 0 or 1. -/
theorem scan_state_ranges (c : Config) (hT : 1 ≤ c.DVI_VTOTAL) (n : Nat) :
    0 ≤ (DviRun c n).DviScanLine ∧ (DviRun c n).DviScanLine ≤ (c.DVI_VTOTAL : Int) - 1 ∧
    ((DviRun c n).DviBufInx = 0 ∨ (DviRun c n).DviBufInx = 1) := by
  obtain ⟨h0, h1⟩ := DviRun_scanLine c n
  exact ⟨h0, by omega, DviRun_bufInx c n⟩

/-- C12 amended, at a sample input: scenario A, after 10 calls (one frame). -/
theorem scan_state_ranges_witness :
    0 ≤ (DviRun (scenarioA vga640) 10).DviScanLine ∧
    (DviRun (scenarioA vga640) 10).DviScanLine ≤ ((scenarioA vga640).DVI_VTOTAL : Int) - 1 ∧
    ((DviRun (scenarioA vga640) 10).DviBufInx = 0 ∨
      (DviRun (scenarioA vga640) 10).DviBufInx = 1) :=
  scan_state_ranges (scenarioA vga640) (by decide) 10

/-! ### The control symbols -/

/-- C13. Sync control symbols: for every index `i` in 0..3 the word of
`DviCtrlSyms` is `(s << 10) | s` for the TMDS control code `s` of the pair
C0 = not HSYNC (bit 0 of `i`), C1 = not VSYNC (bit 1 of `i`), it is below
`2^20` (upper 12 bits zero), and the five entries of the table are pairwise
distinct. -/
theorem ctrl_syms_table :
    (∀ i : Fin 4, DviCtrlSyms[i.val]? = some (specCtrlWord i.val) ∧ specCtrlWord i.val < 2 ^ 20) ∧
    DviCtrlSyms.length = 5 ∧ DviCtrlSyms.Nodup := by
  decide

/-! ### The index rule of the encoder -/

set_option maxRecDepth 100000 in
theorem and_low_byte (x m : Nat) (hm : m < 256) : x &&& m = (x % 256) &&& m := by
  have h1 : x % 256 = x &&& 255 := (Nat.and_pow_two_sub_one_eq_mod x 8).symm
  have h2 : (255 : Nat) &&& m = m := by
    have : ∀ m < 256, (255 : Nat) &&& m = m := by decide
    exact this m hm
  rw [h1, Nat.and_assoc, h2]

set_option maxRecDepth 100000 in
theorem and_248 (x : Nat) : x &&& 248 = x / 8 % 32 * 8 := by
  have h : ∀ y < 256, y &&& 248 = y / 8 % 32 * 8 := by decide
  rw [and_low_byte x 248 (by decide), h _ (Nat.mod_lt _ (by decide))]
  omega

set_option maxRecDepth 100000 in
theorem and_252 (x : Nat) : x &&& 252 = x / 4 % 64 * 4 := by
  have h : ∀ y < 256, y &&& 252 = y / 4 % 64 * 4 := by decide
  rw [and_low_byte x 252 (by decide), h _ (Nat.mod_lt _ (by decide))]
  omega

/-- The byte offsets produced for the red channel: 8 times the channel value. -/
theorem red_offsets (w : Nat) :
    interpOffset redLane0 w = 8 * redOf (pixel0 w) ∧
    interpOffset redLane1 w = 8 * redOf (pixel1 w) := by
  have e0 : interpOffset redLane0 w = (w >>> 8) &&& 248 := rfl
  have e1 : interpOffset redLane1 w = (w >>> 24) &&& 248 := rfl
  rw [e0, e1, and_248, and_248, Nat.shiftRight_eq_div_pow, Nat.shiftRight_eq_div_pow]
  unfold redOf pixel0 pixel1
  norm_num
  omega

/-- The byte offsets produced for the green channel: 4 times the channel value. -/
theorem green_offsets (w : Nat) :
    interpOffset greenLane0 w = 4 * greenOf (pixel0 w) ∧
    interpOffset greenLane1 w = 4 * greenOf (pixel1 w) := by
  have e0 : interpOffset greenLane0 w = (w >>> 3) &&& 252 := rfl
  have e1 : interpOffset greenLane1 w = (w >>> 19) &&& 252 := rfl
  rw [e0, e1, and_252, and_252, Nat.shiftRight_eq_div_pow, Nat.shiftRight_eq_div_pow]
  unfold greenOf pixel0 pixel1
  norm_num
  omega

/-- C14. Index rule set up by `DviEncode`: the red lanes are set to shift 8
resp. 24 with mask bits 3..7, the green lanes to shift 3 resp. 19 with mask
bits 2..7; under the shift/mask rule of the interpolator, for every input word
`w` with pixels `p0` (bits 0-15) and `p1` (bits 16-31), the red lanes give the
byte offsets `4*(2*r0)` and `4*(2*r1)` with `r` = bits 11..15 of the pixel and
the green lanes give `4*g0` and `4*g1` with `g` = bits 5..10; each offset is a
multiple of 4 below 256, the channel value is recovered from the index
`offset/4` (`r = index/2`, `g = index`), and two words whose pixel has the same
channel value give the same offset, whatever their other bits. -/
theorem index_rule (w w' : Nat) :
    (redLane0 = ⟨8, 3, 7, false⟩ ∧ redLane1 = ⟨24, 3, 7, true⟩ ∧
      greenLane0 = ⟨3, 2, 7, false⟩ ∧ greenLane1 = ⟨19, 2, 7, true⟩) ∧
    (interpOffset redLane0 w = 4 * (2 * redOf (pixel0 w)) ∧
      interpOffset redLane1 w = 4 * (2 * redOf (pixel1 w)) ∧
      interpOffset greenLane0 w = 4 * greenOf (pixel0 w) ∧
      interpOffset greenLane1 w = 4 * greenOf (pixel1 w)) ∧
    (interpOffset redLane0 w % 4 = 0 ∧ interpOffset redLane0 w < 256 ∧
      interpOffset redLane1 w % 4 = 0 ∧ interpOffset redLane1 w < 256 ∧
      interpOffset greenLane0 w % 4 = 0 ∧ interpOffset greenLane0 w < 256 ∧
      interpOffset greenLane1 w % 4 = 0 ∧ interpOffset greenLane1 w < 256) ∧
    (interpOffset redLane0 w / 4 / 2 = redOf (pixel0 w) ∧
      interpOffset redLane1 w / 4 / 2 = redOf (pixel1 w) ∧
      interpOffset greenLane0 w / 4 = greenOf (pixel0 w) ∧
      interpOffset greenLane1 w / 4 = greenOf (pixel1 w)) ∧
    ((redOf (pixel0 w) = redOf (pixel0 w') →
        interpOffset redLane0 w = interpOffset redLane0 w') ∧
      (redOf (pixel1 w) = redOf (pixel1 w') →
        interpOffset redLane1 w = interpOffset redLane1 w') ∧
      (greenOf (pixel0 w) = greenOf (pixel0 w') →
        interpOffset greenLane0 w = interpOffset greenLane0 w') ∧
      (greenOf (pixel1 w) = greenOf (pixel1 w') →
        interpOffset greenLane1 w = interpOffset greenLane1 w')) := by
  obtain ⟨r0, r1⟩ := red_offsets w
  obtain ⟨g0, g1⟩ := green_offsets w
  obtain ⟨r0', r1'⟩ := red_offsets w'
  obtain ⟨g0', g1'⟩ := green_offsets w'
  have b0 : redOf (pixel0 w) < 32 := Nat.mod_lt _ (by decide)
  have b1 : redOf (pixel1 w) < 32 := Nat.mod_lt _ (by decide)
  have b2 : greenOf (pixel0 w) < 64 := Nat.mod_lt _ (by decide)
  have b3 : greenOf (pixel1 w) < 64 := Nat.mod_lt _ (by decide)
  refine ⟨by decide, ⟨by omega, by omega, by omega, by omega⟩,
    ⟨by omega, by omega, by omega, by omega, by omega, by omega, by omega, by omega⟩,
    ⟨by omega, by omega, by omega, by omega⟩, ?_, ?_, ?_, ?_⟩
  · intro h; rw [r0, r0', h]
  · intro h; rw [r1, r1', h]
  · intro h; rw [g0, g0', h]
  · intro h; rw [g1, g1', h]

/-- C14, at a sample input: the words 0x1234F800 and 0xFFFFFFFF have the same
red value 31 in their first pixel and give the same red offset, 4*(2*31). -/
theorem index_rule_witness :
    interpOffset redLane0 0x1234F800 = 4 * (2 * redOf (pixel0 0x1234F800)) ∧
    interpOffset redLane0 0x1234F800 = interpOffset redLane0 0xFFFFFFFF :=
  ⟨(index_rule 0x1234F800 0xFFFFFFFF).2.1.1,
    (index_rule 0x1234F800 0xFFFFFFFF).2.2.2.2.1 (by decide)⟩

/-! ### From the encoder to the lanes -/

theorem DBUF_quarter (c : Config) : DBUF_SIZE c / 4 = c.DVI_HACT / 2 := by
  unfold DBUF_SIZE
  omega

/-- The image chains of the three lanes for data buffer `b`, with the read
position of the image segment as a multiple of `HACT/2`. -/
theorem image_chains (k : Sdk) (c : Config) (b : Nat) (hb : b = 0 ∨ b = 1) :
    chainAt (DviBufInit k c) 4 (imageChain (b : Int)).lane0 =
      [some ⟨.addrCtrlSyms 0, .addrTxf (DVI_SM c 0), .num (c.DVI_HFRONT / 2),
          .num (ctrlWord k c 0 2 false)⟩,
       some ⟨.addrCtrlSyms 1, .addrTxf (DVI_SM c 0), .num (c.DVI_HSYNC / 2),
          .num (ctrlWord k c 0 2 false)⟩,
       some ⟨.addrCtrlSyms 0, .addrTxf (DVI_SM c 0), .num (c.DVI_HBACK / 2),
          .num (ctrlWord k c 0 2 true)⟩,
       some ⟨.addrLineBuf ((2 * 0 + b) * (c.DVI_HACT / 2)), .addrTxf (DVI_SM c 0),
          .num (c.DVI_HACT / 2), .num (ctrlWord k c 0 0 false)⟩] ∧
    chainAt (DviBufInit k c) 2 (imageChain (b : Int)).lane1 =
      [some ⟨.addrCtrlSyms 0, .addrTxf (DVI_SM c 1),
          .num ((c.DVI_HFRONT + c.DVI_HSYNC + c.DVI_HBACK) / 2), .num (ctrlWord k c 1 2 false)⟩,
       some ⟨.addrLineBuf ((2 * 1 + b) * (c.DVI_HACT / 2)), .addrTxf (DVI_SM c 1),
          .num (c.DVI_HACT / 2), .num (ctrlWord k c 1 0 false)⟩] ∧
    chainAt (DviBufInit k c) 2 (imageChain (b : Int)).lane2 =
      [some ⟨.addrCtrlSyms 0, .addrTxf (DVI_SM c 2),
          .num ((c.DVI_HFRONT + c.DVI_HSYNC + c.DVI_HBACK) / 2), .num (ctrlWord k c 2 2 false)⟩,
       some ⟨.addrLineBuf ((2 * 2 + b) * (c.DVI_HACT / 2)), .addrTxf (DVI_SM c 2),
          .num (c.DVI_HACT / 2), .num (ctrlWord k c 2 0 false)⟩] := by
  have hq := DBUF_quarter c
  obtain ⟨a0, a1⟩ := chain_img0 k c
  obtain ⟨b0, b1⟩ := chain_img1 k c
  obtain ⟨c0, c1⟩ := chain_img2 k c
  rw [hq] at a1 b0 b1 c0 c1
  rcases hb with rfl | rfl
  · have e0 : (imageChain ((0 : Nat) : Int)).lane0 = ⟨.DviLineBufImg0, 0⟩ := rfl
    have e1 : (imageChain ((0 : Nat) : Int)).lane1 = ⟨.DviLineBufImg12, 0⟩ := rfl
    have e2 : (imageChain ((0 : Nat) : Int)).lane2 = ⟨.DviLineBufImg12, 16⟩ := rfl
    rw [e0, e1, e2, a0, b0, c0]
    refine ⟨?_, ?_, ?_⟩ <;> simp <;> omega
  · have e0 : (imageChain ((1 : Nat) : Int)).lane0 = ⟨.DviLineBufImg0, 16⟩ := rfl
    have e1 : (imageChain ((1 : Nat) : Int)).lane1 = ⟨.DviLineBufImg12, 8⟩ := rfl
    have e2 : (imageChain ((1 : Nat) : Int)).lane2 = ⟨.DviLineBufImg12, 24⟩ := rfl
    rw [e0, e1, e2, a1, b1, c1]
    refine ⟨?_, ?_, ?_⟩ <;> simp <;> omega

/-- The destination of `DviEncode` for lane `L` and buffer `b`, as a word index. -/
theorem encodeDst_eq (c : Config) (L b : Nat) (hL : L < 3) :
    encodeDst c L (b : Int) = (((2 * L + b) * (c.DVI_HACT / 2) : Nat) : Int) := by
  have key : ∀ j : Nat, Int.tdiv (((j : Int)) * (DBUF_SIZE c : Int)) 4 =
      ((j * (c.DVI_HACT / 2) : Nat) : Int) := by
    intro j
    rw [Int.tdiv_eq_ediv (by positivity) (by decide)]
    unfold DBUF_SIZE
    push_cast
    rw [← mul_assoc]
    exact Int.mul_ediv_cancel _ (by decide)
  interval_cases L
  · have := key (0 * 2 + b)
    simpa [encodeDst, DviEncode_dst] using this
  · have := key (1 * 2 + b)
    simpa [encodeDst, DviEncode_dstG] using this
  · have := key (2 * 2 + b)
    simpa [encodeDst, DviEncode_dstR] using this

/-- C15. The encoded buffer reaches the right lane on both duplicated lines:
for a buffer index `b` in {0,1}, when a call of `DviLine` stores position `2k`
of the image area (so `DviEncode(k, b)` runs) and the next call stores
position `2k+1`, both calls chain the image set of buffer `b`; and for each
lane `L` in {0,1,2} the last segment of that lane's chain transfers `HACT/2`
words, with ring order 0 (no ring), to the transfer FIFO of the state machine
of lane `L`, reading `DviLineBuf` from word `(2*L + b) * (HACT/2)`, which is
the destination index of `DviEncode(k, b)` for that lane (blue = lane 0,
green = lane 1, red = lane 2). -/
theorem encoded_buffer_reaches_lane (k : Sdk) (c : Config) (s : DviState) (kk : Int)
    (b : Nat) (hb : b = 0 ∨ b = 1) (hs : s.DviBufInx = (b : Int)) (h0 : 0 ≤ kk)
    (hA : 2 * kk + 1 < (c.DVI_VACT : Int))
    (hp : (DviLine c s).1.DviScanLine - c.DVI_VSYNC - c.DVI_VBACK = 2 * kk)
    (hq : (DviLine c (DviLine c s).1).1.DviScanLine - c.DVI_VSYNC - c.DVI_VBACK = 2 * kk + 1) :
    (DviLine c s).2.DviEncode = [(kk, (b : Int))] ∧
    (DviLine c s).1.DviCtrlBufNext = imageChain (b : Int) ∧
    (DviLine c (DviLine c s).1).2.DviEncode = [] ∧
    (DviLine c (DviLine c s).1).1.DviCtrlBufNext = imageChain (b : Int) ∧
    (lastSegment (DviBufInit k c) 4 (imageChain (b : Int)).lane0 =
        some ⟨.addrLineBuf ((2 * 0 + b) * (c.DVI_HACT / 2)), .addrTxf (DVI_SM c 0),
          .num (c.DVI_HACT / 2), .num (ctrlWord k c 0 0 false)⟩ ∧
      encodeDst c 0 (b : Int) = (((2 * 0 + b) * (c.DVI_HACT / 2) : Nat) : Int)) ∧
    (lastSegment (DviBufInit k c) 2 (imageChain (b : Int)).lane1 =
        some ⟨.addrLineBuf ((2 * 1 + b) * (c.DVI_HACT / 2)), .addrTxf (DVI_SM c 1),
          .num (c.DVI_HACT / 2), .num (ctrlWord k c 1 0 false)⟩ ∧
      encodeDst c 1 (b : Int) = (((2 * 1 + b) * (c.DVI_HACT / 2) : Nat) : Int)) ∧
    (lastSegment (DviBufInit k c) 2 (imageChain (b : Int)).lane2 =
        some ⟨.addrLineBuf ((2 * 2 + b) * (c.DVI_HACT / 2)), .addrTxf (DVI_SM c 2),
          .num (c.DVI_HACT / 2), .num (ctrlWord k c 2 0 false)⟩ ∧
      encodeDst c 2 (b : Int) = (((2 * 2 + b) * (c.DVI_HACT / 2) : Nat) : Int)) := by
  obtain ⟨i0, i1, i2⟩ := image_chains k c b hb
  have hl := DviLine_scanLine c s
  have hl1 := DviLine_scanLine c (DviLine c s).1
  rw [hl] at hp
  rw [hl1] at hq
  have e1 : DviLine c s =
      ({ DviScanLine := newLine c s, DviFrame := newFrame c s, DviBufInx := s.DviBufInx,
         DviCtrlBufNext := imageChain s.DviBufInx },
       { DMA_SetRead := s.DviCtrlBufNext,
         DviEncode := [((newLine c s - c.DVI_VSYNC - c.DVI_VBACK) / 2, s.DviBufInx)] }) :=
    DviLine_even c s (by omega) (by omega) (by omega)
  have hk : (newLine c s - c.DVI_VSYNC - c.DVI_VBACK) / 2 = kk := by omega
  have hb1 : (DviLine c s).1.DviBufInx = (b : Int) := by rw [e1]; exact hs
  have e2 := DviLine_odd c (DviLine c s).1 (by omega) (by omega) (by omega)
  refine ⟨?_, ?_, ?_, ?_, ⟨?_, encodeDst_eq c 0 b (by decide)⟩,
    ⟨?_, encodeDst_eq c 1 b (by decide)⟩, ⟨?_, encodeDst_eq c 2 b (by decide)⟩⟩
  · rw [e1, hk, hs]
  · rw [e1, hs]
  · rw [e2]
  · rw [e2, hb1]
  · simp [lastSegment, i0]
  · simp [lastSegment, i1]
  · simp [lastSegment, i2]

/-- C15, at a sample input: RP2040 layout, 640x480, buffer 0, the calls storing
lines 35 and 36 (positions 0 and 1); lane 2 (red) reads from word 4*320. -/
theorem encoded_buffer_reaches_lane_witness :
    (DviLine vga640 { DviInit with DviScanLine := 34 }).2.DviEncode = [(0, ((0 : Nat) : Int))] ∧
    lastSegment (DviBufInit rp2040 vga640) 2 (imageChain ((0 : Nat) : Int)).lane2 =
      some ⟨.addrLineBuf ((2 * 2 + 0) * (vga640.DVI_HACT / 2)), .addrTxf (DVI_SM vga640 2),
        .num (vga640.DVI_HACT / 2), .num (ctrlWord rp2040 vga640 2 0 false)⟩ ∧
    encodeDst vga640 2 ((0 : Nat) : Int) = (((2 * 2 + 0) * (vga640.DVI_HACT / 2) : Nat) : Int) :=
  have h := encoded_buffer_reaches_lane rp2040 vga640 { DviInit with DviScanLine := 34 } 0 0
    (Or.inl rfl) (by decide) (by decide) (by decide) (by decide) (by decide)
  ⟨h.1, h.2.2.2.2.2.2.1, h.2.2.2.2.2.2.2⟩

/-! ### Line length on the three lanes -/

/-- C16. Lane synchrony of the transfer counts: when `HFRONT`, `HSYNC`, `HBACK`
and `HACT` are even, every chain written by `DviBufInit` has the total
transfer count `(HFRONT+HSYNC+HBACK+HACT)/2`: the four-segment chains of lane 0
(vertical sync, dark, image buffers 0 and 1) and the two-segment chains of
lanes 1 and 2 (dark, which also serves the vertical-sync lines, and image
buffers 0 and 1). -/
theorem lane_synchrony (k : Sdk) (c : Config)
    (hF : c.DVI_HFRONT % 2 = 0) (hS : c.DVI_HSYNC % 2 = 0) (hB : c.DVI_HBACK % 2 = 0)
    (hA : c.DVI_HACT % 2 = 0) :
    (∀ p ∈ [(⟨.DviLineBufSync, 0⟩ : CbPtr), ⟨.DviLineBufDark0, 0⟩, ⟨.DviLineBufImg0, 0⟩,
        ⟨.DviLineBufImg0, 16⟩],
      chainCount (chainAt (DviBufInit k c) 4 p) =
        some ((c.DVI_HFRONT + c.DVI_HSYNC + c.DVI_HBACK + c.DVI_HACT) / 2)) ∧
    (∀ p ∈ [(⟨.DviLineBufDark12, 0⟩ : CbPtr), ⟨.DviLineBufDark12, 8⟩, ⟨.DviLineBufImg12, 0⟩,
        ⟨.DviLineBufImg12, 8⟩, ⟨.DviLineBufImg12, 16⟩, ⟨.DviLineBufImg12, 24⟩],
      chainCount (chainAt (DviBufInit k c) 2 p) =
        some ((c.DVI_HFRONT + c.DVI_HSYNC + c.DVI_HBACK + c.DVI_HACT) / 2)) := by
  constructor
  · intro p hp
    simp only [List.mem_cons, List.mem_singleton, List.not_mem_nil, or_false] at hp
    rcases hp with rfl | rfl | rfl | rfl
    · rw [chain_sync]; simp [chainCount, countOf]; omega
    · rw [chain_dark0]; simp [chainCount, countOf]; omega
    · rw [(chain_img0 k c).1]; simp [chainCount, countOf]; omega
    · rw [(chain_img0 k c).2]; simp [chainCount, countOf]; omega
  · intro p hp
    simp only [List.mem_cons, List.mem_singleton, List.not_mem_nil, or_false] at hp
    rcases hp with rfl | rfl | rfl | rfl | rfl | rfl
    · rw [(chain_dark12 k c).1]; simp [chainCount, countOf]; omega
    · rw [(chain_dark12 k c).2]; simp [chainCount, countOf]; omega
    · rw [(chain_img1 k c).1]; simp [chainCount, countOf]; omega
    · rw [(chain_img1 k c).2]; simp [chainCount, countOf]; omega
    · rw [(chain_img2 k c).1]; simp [chainCount, countOf]; omega
    · rw [(chain_img2 k c).2]; simp [chainCount, countOf]; omega

/-- C16, at a sample input: RP2040 layout, 640x480 (16, 96, 48, 640): 400
transfers per line on the vertical-sync chain of lane 0 and on the image chain
of lane 2, buffer 1. -/
theorem lane_synchrony_witness :
    chainCount (chainAt (DviBufInit rp2040 vga640) 4 ⟨.DviLineBufSync, 0⟩) =
      some ((vga640.DVI_HFRONT + vga640.DVI_HSYNC + vga640.DVI_HBACK + vga640.DVI_HACT) / 2) ∧
    chainCount (chainAt (DviBufInit rp2040 vga640) 2 ⟨.DviLineBufImg12, 24⟩) =
      some ((vga640.DVI_HFRONT + vga640.DVI_HSYNC + vga640.DVI_HBACK + vga640.DVI_HACT) / 2) :=
  have h := lane_synchrony rp2040 vga640 (by decide) (by decide) (by decide) (by decide)
  ⟨h.1 _ (by simp), h.2 _ (by simp)⟩

/-! ### Bounds of the control buffers and of the line buffer -/

/-- The words written by `DviBufInit`, in program order: all words of the five
control buffers, buffer after buffer, each in increasing order. -/
theorem written_words (k : Sdk) (c : Config) :
    (DviBufInit k c).map Prod.fst =
      allWords .DviLineBufSync ++ allWords .DviLineBufDark0 ++ allWords .DviLineBufDark12 ++
        allWords .DviLineBufImg0 ++ allWords .DviLineBufImg12 := by
  unfold DviBufInit
  simp only [DviSetCb, imgLoop0, imgLoop12, List.append_assoc, List.cons_append,
    List.nil_append, List.append_nil]
  rfl

set_option maxRecDepth 100000 in
theorem allWords_nodup :
    (allWords .DviLineBufSync ++ allWords .DviLineBufDark0 ++ allWords .DviLineBufDark12 ++
      allWords .DviLineBufImg0 ++ allWords .DviLineBufImg12).Nodup := by
  decide

set_option maxRecDepth 100000 in
theorem allWords_bounds :
    ∀ p ∈ allWords .DviLineBufSync ++ allWords .DviLineBufDark0 ++ allWords .DviLineBufDark12 ++
      allWords .DviLineBufImg0 ++ allWords .DviLineBufImg12,
      0 ≤ p.off ∧ p.off < (p.buf.size : Int) := by
  decide

/-- The six read regions of `HACT/2` words cover the words of `DviLineBuf`. -/
theorem regions_cover (c : Config) (i : Nat) :
    i < DviLineBuf_size c ↔
      ∃ L b : Nat, L < 3 ∧ b < 2 ∧ (2 * L + b) * (c.DVI_HACT / 2) ≤ i ∧
        i < (2 * L + b) * (c.DVI_HACT / 2) + c.DVI_HACT / 2 := by
  have hs : DviLineBuf_size c = 6 * (c.DVI_HACT / 2) := by
    unfold DviLineBuf_size DVI_LANES
    rw [DBUF_quarter]
    omega
  rw [hs]
  constructor
  · intro h
    have hd : i < 1 * (c.DVI_HACT / 2) ∨
        (1 * (c.DVI_HACT / 2) ≤ i ∧ i < 2 * (c.DVI_HACT / 2)) ∨
        (2 * (c.DVI_HACT / 2) ≤ i ∧ i < 3 * (c.DVI_HACT / 2)) ∨
        (3 * (c.DVI_HACT / 2) ≤ i ∧ i < 4 * (c.DVI_HACT / 2)) ∨
        (4 * (c.DVI_HACT / 2) ≤ i ∧ i < 5 * (c.DVI_HACT / 2)) ∨
        (5 * (c.DVI_HACT / 2) ≤ i ∧ i < 6 * (c.DVI_HACT / 2)) := by omega
    rcases hd with h1 | h1 | h1 | h1 | h1 | h1
    · exact ⟨0, 0, by decide, by decide, by omega, by omega⟩
    · exact ⟨0, 1, by decide, by decide, by omega, by omega⟩
    · exact ⟨1, 0, by decide, by decide, by omega, by omega⟩
    · exact ⟨1, 1, by decide, by decide, by omega, by omega⟩
    · exact ⟨2, 0, by decide, by decide, by omega, by omega⟩
    · exact ⟨2, 1, by decide, by decide, by omega, by omega⟩
  · rintro ⟨L, b, hL, hb, h1, h2⟩
    interval_cases L <;> interval_cases b <;> omega

/-- The six read regions are pairwise disjoint. -/
theorem regions_disjoint (c : Config) (i L b L' b' : Nat) (hL : L < 3) (hb : b < 2)
    (hL' : L' < 3) (hb' : b' < 2)
    (h1 : (2 * L + b) * (c.DVI_HACT / 2) ≤ i)
    (h2 : i < (2 * L + b) * (c.DVI_HACT / 2) + c.DVI_HACT / 2)
    (h3 : (2 * L' + b') * (c.DVI_HACT / 2) ≤ i)
    (h4 : i < (2 * L' + b') * (c.DVI_HACT / 2) + c.DVI_HACT / 2) :
    L = L' ∧ b = b' := by
  interval_cases L <;> interval_cases b <;> interval_cases L' <;> interval_cases b' <;>
    first | exact ⟨rfl, rfl⟩ | (exfalso; omega)

/-- C17. Descriptor and line-buffer bounds. (a) The words written by
`DviBufInit` are exactly the 16 words of `DviLineBufSync`, the 16 of
`DviLineBufDark0`, the 16 of `DviLineBufDark12`, the 32 of `DviLineBufImg0` and
the 32 of `DviLineBufImg12`, each written once and none outside the arrays.
(b) The six regions `(2*L + b) * (HACT/2) .. + HACT/2` (lane `L` in {0,1,2},
buffer `b` in {0,1}) cover exactly the words of `DviLineBuf` and are pairwise
disjoint. (c) Every value `DviLine` stores in `DviCtrlBufNext` is the
vertical-sync set, the dark set or the image set of its `bufinx`; for `bufinx`
in {0,1} the three pointers of the image set (word offsets `16*bufinx`,
`8*bufinx`, `8*(bufinx+2)`) lie in their array together with the whole chain
(16 resp. 8 words), and the chain read there is complete: front porch, HSYNC,
back porch and image segment on lane 0, porch and image segment on lanes 1 and
2, the image segment reading region `(2*L + bufinx)`. -/
theorem descriptor_bounds (k : Sdk) (c : Config) :
    ((DviBufInit k c).map Prod.fst =
        allWords .DviLineBufSync ++ allWords .DviLineBufDark0 ++ allWords .DviLineBufDark12 ++
          allWords .DviLineBufImg0 ++ allWords .DviLineBufImg12 ∧
      ((DviBufInit k c).map Prod.fst).Nodup ∧
      ∀ p ∈ (DviBufInit k c).map Prod.fst, 0 ≤ p.off ∧ p.off < (p.buf.size : Int)) ∧
    ((∀ i : Nat, i < DviLineBuf_size c ↔
        ∃ L b : Nat, L < 3 ∧ b < 2 ∧ (2 * L + b) * (c.DVI_HACT / 2) ≤ i ∧
          i < (2 * L + b) * (c.DVI_HACT / 2) + c.DVI_HACT / 2) ∧
      ∀ i L b L' b' : Nat, L < 3 → b < 2 → L' < 3 → b' < 2 →
        (2 * L + b) * (c.DVI_HACT / 2) ≤ i →
        i < (2 * L + b) * (c.DVI_HACT / 2) + c.DVI_HACT / 2 →
        (2 * L' + b') * (c.DVI_HACT / 2) ≤ i →
        i < (2 * L' + b') * (c.DVI_HACT / 2) + c.DVI_HACT / 2 → L = L' ∧ b = b') ∧
    (∀ s : DviState, (DviLine c s).1.DviCtrlBufNext = vsyncChain ∨
      (DviLine c s).1.DviCtrlBufNext = darkChain ∨
      (DviLine c s).1.DviCtrlBufNext = imageChain s.DviBufInx) ∧
    (∀ b : Nat, b = 0 ∨ b = 1 →
      ((imageChain (b : Int)).lane0 = ⟨.DviLineBufImg0, 16 * (b : Int)⟩ ∧
        (imageChain (b : Int)).lane1 = ⟨.DviLineBufImg12, 8 * (b : Int)⟩ ∧
        (imageChain (b : Int)).lane2 = ⟨.DviLineBufImg12, 8 * ((b : Int) + 2)⟩) ∧
      (0 ≤ 16 * (b : Int) ∧ 16 * (b : Int) + 4 * 4 ≤ (CtrlBuf.size .DviLineBufImg0 : Int) ∧
        0 ≤ 8 * (b : Int) ∧ 8 * (b : Int) + 2 * 4 ≤ (CtrlBuf.size .DviLineBufImg12 : Int) ∧
        0 ≤ 8 * ((b : Int) + 2) ∧
        8 * ((b : Int) + 2) + 2 * 4 ≤ (CtrlBuf.size .DviLineBufImg12 : Int)) ∧
      chainAt (DviBufInit k c) 4 (imageChain (b : Int)).lane0 =
        [some ⟨.addrCtrlSyms 0, .addrTxf (DVI_SM c 0), .num (c.DVI_HFRONT / 2),
            .num (ctrlWord k c 0 2 false)⟩,
         some ⟨.addrCtrlSyms 1, .addrTxf (DVI_SM c 0), .num (c.DVI_HSYNC / 2),
            .num (ctrlWord k c 0 2 false)⟩,
         some ⟨.addrCtrlSyms 0, .addrTxf (DVI_SM c 0), .num (c.DVI_HBACK / 2),
            .num (ctrlWord k c 0 2 true)⟩,
         some ⟨.addrLineBuf ((2 * 0 + b) * (c.DVI_HACT / 2)), .addrTxf (DVI_SM c 0),
            .num (c.DVI_HACT / 2), .num (ctrlWord k c 0 0 false)⟩] ∧
      chainAt (DviBufInit k c) 2 (imageChain (b : Int)).lane1 =
        [some ⟨.addrCtrlSyms 0, .addrTxf (DVI_SM c 1),
            .num ((c.DVI_HFRONT + c.DVI_HSYNC + c.DVI_HBACK) / 2),
            .num (ctrlWord k c 1 2 false)⟩,
         some ⟨.addrLineBuf ((2 * 1 + b) * (c.DVI_HACT / 2)), .addrTxf (DVI_SM c 1),
            .num (c.DVI_HACT / 2), .num (ctrlWord k c 1 0 false)⟩] ∧
      chainAt (DviBufInit k c) 2 (imageChain (b : Int)).lane2 =
        [some ⟨.addrCtrlSyms 0, .addrTxf (DVI_SM c 2),
            .num ((c.DVI_HFRONT + c.DVI_HSYNC + c.DVI_HBACK) / 2),
            .num (ctrlWord k c 2 2 false)⟩,
         some ⟨.addrLineBuf ((2 * 2 + b) * (c.DVI_HACT / 2)), .addrTxf (DVI_SM c 2),
            .num (c.DVI_HACT / 2), .num (ctrlWord k c 2 0 false)⟩]) := by
  refine ⟨⟨written_words k c, ?_, ?_⟩, ⟨regions_cover c, ?_⟩, ?_, ?_⟩
  · rw [written_words]; exact allWords_nodup
  · rw [written_words]; exact allWords_bounds
  · intro i L b L' b' hL hb hL' hb' h1 h2 h3 h4
    exact regions_disjoint c i L b L' b' hL hb hL' hb' h1 h2 h3 h4
  · intro s
    rw [DviLine_next]
    split_ifs
    · exact Or.inl rfl
    · exact Or.inr (Or.inl rfl)
    · exact Or.inr (Or.inr rfl)
  · intro b hb
    refine ⟨⟨rfl, rfl, rfl⟩, ?_, image_chains k c b hb⟩
    rcases hb with rfl | rfl <;> decide

/-- C17, at a sample input: RP2040 layout and 640x480 (`HACT/2 = 320`): word
1000 of `DviLineBuf` lies in a region, and the image pointers of buffer 1 lie
in their arrays with their chains. -/
theorem descriptor_bounds_witness :
    (∃ L b : Nat, L < 3 ∧ b < 2 ∧ (2 * L + b) * (vga640.DVI_HACT / 2) ≤ 1000 ∧
      1000 < (2 * L + b) * (vga640.DVI_HACT / 2) + vga640.DVI_HACT / 2) ∧
    (0 ≤ 16 * ((1 : Nat) : Int) ∧
      16 * ((1 : Nat) : Int) + 4 * 4 ≤ (CtrlBuf.size .DviLineBufImg0 : Int) ∧
      0 ≤ 8 * ((1 : Nat) : Int) ∧
      8 * ((1 : Nat) : Int) + 2 * 4 ≤ (CtrlBuf.size .DviLineBufImg12 : Int) ∧
      0 ≤ 8 * (((1 : Nat) : Int) + 2) ∧
      8 * (((1 : Nat) : Int) + 2) + 2 * 4 ≤ (CtrlBuf.size .DviLineBufImg12 : Int)) :=
  ⟨((descriptor_bounds rp2040 vga640).2.1.1 1000).1 (by decide),
    ((descriptor_bounds rp2040 vga640).2.2.2 1 (Or.inr rfl)).2.1⟩

end PicoDvi
